import Mathlib

/-!
LuaSQL ODBC driver (src/ls_odbc.c): row decoding and handle lifecycle

A shallow embedding of the C functions of `ls_odbc.c` that decode result rows
(`fail`, `push_column`, `cur_fetch`) and manage the cursor and connection
handles (`cur_close`, `create_colinfo`, `create_cursor`, `conn_execute`,
`conn_close`), followed by theorems about them.

Conventions of the embedding.

* The Lua state is an explicit record: the C stack of the running C function
  (bottom first, so absolute index 1 is the head), the heap of tables, the heap
  of userdata blocks, and the state of the ODBC driver.
* Every ODBC entry point is a field of `Host`: a function from the driver state
  to its outputs and the next driver state.  The driver is not part of the
  repository, so nothing is assumed about it beyond what a theorem states.
* A C function that returns `int` becomes a function into `Res σ Int`: the value
  returned and the state it leaves.  A Lua C function hands the top `n` stack
  slots to its caller when it returns `n` (`results`).
* The loops that wait on the driver (`fail`, the chunk loop of `push_column`)
  and the column loops take a fuel bound; `Res.outOfFuel` marks a run that
  needed more.
* Bytes are natural numbers, C strings are lists of bytes.  A `lua_Number`
  (a C double) is carried as an integer: the driver code performs no arithmetic
  on a number, it only moves it from the retrieval variable to the stack, and
  the only numbers it builds itself are column positions and references.
-/

namespace LsOdbc

/-! ## Scalars and constants of the C headers -/

abbrev Byte := Nat
abbrev lua_Number := Int
abbrev SQLRETURN := Int

/-- The bytes of a string literal of the C source. -/
def bytes (s : String) : List Byte := s.toList.map Char.toNat

def SQL_SUCCESS : Int := 0
def SQL_SUCCESS_WITH_INFO : Int := 1
def SQL_NO_DATA : Int := 100
def SQL_ERROR : Int := -1
def SQL_INVALID_HANDLE : Int := -2

def SQL_NULL_DATA : Int := -1
def SQL_NO_TOTAL : Int := -4

def SQL_HANDLE_ENV : Int := 1
def SQL_HANDLE_DBC : Int := 2
def SQL_HANDLE_STMT : Int := 3
def hENV : Int := SQL_HANDLE_ENV
def hSTMT : Int := SQL_HANDLE_STMT
def hDBC : Int := SQL_HANDLE_DBC

def SQL_C_CHAR : Int := 1
def SQL_C_DOUBLE : Int := 8
def SQL_C_BINARY : Int := -2
def SQL_C_BIT : Int := -7

def SQL_MAX_MESSAGE_LENGTH : Int := 512

def LUA_REGISTRYINDEX : Int := -10000
def LUA_NOREF : Int := -2
def LUA_REFNIL : Int := -1

/-- The macro `error(a)`: `(a) != SQL_SUCCESS && (a) != SQL_SUCCESS_WITH_INFO`. -/
def error (a : SQLRETURN) : Bool := a != SQL_SUCCESS && a != SQL_SUCCESS_WITH_INFO

/-- Conversion of an `int` to `SQLSMALLINT` (16 bit, two's complement). -/
def toSQLSMALLINT (x : Int) : Int := (x + 32768) % 65536 - 32768

/-- Conversion of an `int` to `SQLUSMALLINT` (16 bit, unsigned). -/
def toSQLUSMALLINT (x : Int) : Int := x % 65536

/-- Conversion of an `int` to `unsigned` (32 bit). -/
def toUnsigned (x : Int) : Nat := (x % 4294967296).toNat

/-- A C string stops at its first zero byte. -/
def cstr (s : List Byte) : List Byte := s.takeWhile (fun c => c != 0)

/-- The test `strchr (s, c) != NULL` for a character `c` other than zero. -/
def strchr (s : List Byte) (c : Byte) : Bool := (cstr s).contains c

/-! ## Lua values and the Lua state -/

inductive LuaValue where
  | nil
  | boolean (b : Bool)
  | number (n : lua_Number)
  | string (s : List Byte)
  | table (id : Nat)
  | userdata (id : Nat)
  deriving DecidableEq

structure env_data where
  closed : Bool
  conn_counter : Nat
  henv : Nat

structure conn_data where
  closed : Bool
  cur_counter : Nat
  env : Int
  auto_commit : Int
  hdbc : Nat

structure cur_data where
  closed : Bool
  conn : Int
  numcols : Int
  hstmt : Nat
  colinfo : Int

/-- A userdata block, tagged by the metatable `luasql_setmeta` gave it. -/
inductive UData where
  | raw
  | env (e : env_data)
  | conn (c : conn_data)
  | cur (c : cur_data)

/-- A Lua table: the value stored under each key, `nil` when there is none. -/
abbrev Table := LuaValue → LuaValue

/-- The table id of the registry (pseudo-index `LUA_REGISTRYINDEX`). -/
def REGISTRY : Nat := 0

structure lua_State (σ : Type) where
  stack : List LuaValue
  tables : Nat → Table
  ntables : Nat
  udata : Nat → UData
  nudata : Nat
  nref : Int
  odbc : σ

/-- Outcome of running a C function of the driver. -/
inductive Res (σ : Type) (α : Type) where
  | ok (a : α) (L : lua_State σ)
  | raise (msg : List Byte) (L : lua_State σ)
  | abort
  | undefined
  | outOfFuel

/-- Sequencing: continue with `f` when the first run returned normally. -/
def Res.bind {σ α β : Type} (r : Res σ α) (f : α → lua_State σ → Res σ β) : Res σ β :=
  match r with
  | .ok a L => f a L
  | .raise m L => .raise m L
  | .abort => .abort
  | .undefined => .undefined
  | .outOfFuel => .outOfFuel

/-- The values a Lua C function hands to its caller when it returns `n`. -/
def results {σ : Type} (n : Int) (L : lua_State σ) : List LuaValue :=
  L.stack.drop (L.stack.length - n.toNat)

/-! ## The Lua C API used by the driver -/

section api
variable {σ : Type}

/-- The value at an acceptable stack index (or the registry pseudo-index). -/
def index2adr (L : lua_State σ) (idx : Int) : Option LuaValue :=
  if idx = LUA_REGISTRYINDEX then some (.table REGISTRY)
  else if 0 < idx then L.stack.get? (idx.toNat - 1)
  else if idx < 0 ∧ (-idx).toNat ≤ L.stack.length then
    L.stack.get? (L.stack.length - (-idx).toNat)
  else none

def push (L : lua_State σ) (v : LuaValue) : lua_State σ :=
  { L with stack := L.stack ++ [v] }

def lua_pushnil (L : lua_State σ) : lua_State σ := push L .nil

def lua_pushnumber (L : lua_State σ) (n : lua_Number) : lua_State σ := push L (.number n)

def lua_pushlstring (L : lua_State σ) (s : List Byte) : lua_State σ := push L (.string s)

/-- The function `lua_pushstring` on a non-NULL C string. -/
def lua_pushstring (L : lua_State σ) (s : List Byte) : lua_State σ := push L (.string (cstr s))

def lua_pushvalue (L : lua_State σ) (idx : Int) : Option (lua_State σ) :=
  (index2adr L idx).map (push L)

def lua_pop (L : lua_State σ) (n : Nat) : lua_State σ :=
  { L with stack := L.stack.take (L.stack.length - n) }

/-- The test `lua_istable`: false at an index above the top. -/
def lua_istable (L : lua_State σ) (idx : Int) : Bool :=
  match index2adr L idx with
  | some (.table _) => true
  | _ => false

/-- Pushes `t[n]` where `t` is the table at `idx`; not defined when there is no table there. -/
def lua_rawgeti (L : lua_State σ) (idx : Int) (n : Int) : Option (lua_State σ) :=
  match index2adr L idx with
  | some (.table t) => some (push L (L.tables t (.number n)))
  | _ => none

/-- The raw lookup `t[k]`: no table holds anything under the key `nil`. -/
def rawlookup (t : Table) (k : LuaValue) : LuaValue :=
  if k = .nil then .nil else t k

/-- Replaces the key on the top by `t[key]` where `t` is the table at `idx`. -/
def lua_rawget (L : lua_State σ) (idx : Int) : Option (lua_State σ) :=
  match index2adr L idx, L.stack.getLast? with
  | some (.table t), some k =>
      some { L with stack := L.stack.dropLast ++ [rawlookup (L.tables t) k] }
  | _, _ => none

/-- Does `t[n] = v` where `t` is the table at `idx` and `v` the top, and pops `v`. -/
def lua_rawseti (L : lua_State σ) (idx : Int) (n : Int) : Option (lua_State σ) :=
  match index2adr L idx, L.stack.getLast? with
  | some (.table t), some v =>
      some { L with
        tables := Function.update L.tables t (Function.update (L.tables t) (.number n) v)
        stack := L.stack.dropLast }
  | _, _ => none

/-- Does `t[k] = v` where `t` is the table at `idx`, `v` the top and `k` the slot below,
and pops both. -/
def lua_rawset (L : lua_State σ) (idx : Int) : Option (lua_State σ) :=
  match index2adr L idx, L.stack.dropLast.getLast?, L.stack.getLast? with
  | some (.table t), some k, some v =>
      some { L with
        tables := Function.update L.tables t (Function.update (L.tables t) k v)
        stack := L.stack.dropLast.dropLast }
  | _, _, _ => none

/-- Pushes a new empty table. -/
def lua_newtable (L : lua_State σ) : lua_State σ :=
  { L with
    tables := Function.update L.tables (L.ntables + 1) (fun _ => .nil)
    ntables := L.ntables + 1
    stack := L.stack ++ [.table (L.ntables + 1)] }

/-- Pushes a new userdata block (no metatable yet) and gives its id. -/
def lua_newuserdata (L : lua_State σ) : Nat × lua_State σ :=
  (L.nudata + 1,
   { L with
     udata := Function.update L.udata (L.nudata + 1) .raw
     nudata := L.nudata + 1
     stack := L.stack ++ [.userdata (L.nudata + 1)] })

/-- The function `luaL_ref (L, LUA_REGISTRYINDEX)`: pops the top and stores it in the
registry under a reference not in use, which it returns (`LUA_REFNIL` for `nil`). -/
def luaL_ref (L : lua_State σ) : Option (Int × lua_State σ) :=
  match L.stack.getLast? with
  | none => none
  | some .nil => some (LUA_REFNIL, { L with stack := L.stack.dropLast })
  | some v =>
      some (L.nref + 1,
        { L with
          tables := Function.update L.tables REGISTRY
            (Function.update (L.tables REGISTRY) (.number (L.nref + 1)) v)
          nref := L.nref + 1
          stack := L.stack.dropLast })

/-- The function `luaL_unref (L, LUA_REGISTRYINDEX, ref)`: releases `ref`. -/
def luaL_unref (L : lua_State σ) (ref : Int) : lua_State σ :=
  if 0 ≤ ref then
    { L with
      tables := Function.update L.tables REGISTRY
        (Function.update (L.tables REGISTRY) (.number ref) .nil) }
  else L

end api

/-! ## The ODBC driver and the constants of headers outside the repository -/

/-- What a call of `SQLGetData` leaves behind: the return code, the indicator `got`, and
the contents of the target (`num` for `SQL_C_DOUBLE`, `b` for `SQL_C_BIT`, the staging
buffer for `SQL_C_CHAR` and `SQL_C_BINARY`). -/
structure GetDataOut where
  rc : SQLRETURN
  got : Int
  num : lua_Number
  b : Byte
  buffer : Nat → Byte

/-- What a call of `SQLGetDiagRec` leaves behind. -/
structure DiagRecOut where
  ret : SQLRETURN
  Msg : Nat → Byte
  MsgSize : Int

/-- What a call of `SQLDescribeCol` leaves behind. -/
structure DescribeColOut where
  ret : SQLRETURN
  buffer : List Byte
  datatype : Int

/-- The collaborators of `ls_odbc.c` that are not in the repository: the ODBC driver
(each entry point maps the driver state and the arguments to the outputs and the next
driver state) and the configuration constants of the Lua and LuaSQL headers. -/
structure Host (σ : Type) where
  LUAL_BUFFERSIZE : Nat
  LUASQL_PREFIX : List Byte
  lua_number2str : lua_Number → List Byte
  SQLGetData : σ → Nat → Int → Int → Int → GetDataOut × σ
  SQLGetDiagRec : σ → Int → Nat → Int → DiagRecOut × σ
  SQLFetch : σ → Nat → SQLRETURN × σ
  SQLCloseCursor : σ → Nat → SQLRETURN × σ
  SQLFreeHandle : σ → Int → Nat → SQLRETURN × σ
  SQLAllocHandle : σ → Int → Nat → (SQLRETURN × Nat) × σ
  SQLPrepare : σ → Nat → List Byte → SQLRETURN × σ
  SQLExecute : σ → Nat → SQLRETURN × σ
  SQLNumResultCols : σ → Nat → (SQLRETURN × Int) × σ
  SQLRowCount : σ → Nat → (SQLRETURN × Int) × σ
  SQLDescribeCol : σ → Nat → Int → DescribeColOut × σ
  SQLDisconnect : σ → Nat → SQLRETURN × σ

section driver
variable {σ : Type}

/-- The function `lua_tostring`: the bytes of a string or of a number converted to a
string, `none` (NULL) for any other value. -/
def lua_tostring (H : Host σ) (L : lua_State σ) (idx : Int) : Option (List Byte) :=
  match index2adr L idx with
  | some (.string s) => some s
  | some (.number n) => some (H.lua_number2str n)
  | _ => none

/-- The first `n` bytes of a C buffer. -/
def readBuffer (buffer : Nat → Byte) (n : Nat) : List Byte := (List.range n).map buffer

/-- The function `luaL_addsize (&b, n)` right after `luaL_prepbuffer (&b)`: the first `n`
bytes of the staging area (whose capacity is `LUAL_BUFFERSIZE`) join the contents `b` of
the `luaL_Buffer`.  Not defined for a size outside the staging area. -/
def luaL_addsize (H : Host σ) (b : List Byte) (buffer : Nat → Byte) (n : Int) :
    Option (List Byte) :=
  if 0 ≤ n ∧ n ≤ H.LUAL_BUFFERSIZE then some (b ++ readBuffer buffer n.toNat) else none

/-- The function `luaL_addlstring (&b, Msg, MsgSize)` on the array
`char Msg[SQL_MAX_MESSAGE_LENGTH]`.  Not defined for a size outside the array. -/
def luaL_addlstring (b : List Byte) (Msg : Nat → Byte) (MsgSize : Int) : Option (List Byte) :=
  if 0 ≤ MsgSize ∧ MsgSize ≤ SQL_MAX_MESSAGE_LENGTH then some (b ++ readBuffer Msg MsgSize.toNat)
  else none

/-- Pushes 1 and returns 1. -/
def pass (L : lua_State σ) : Res σ Int := .ok 1 (lua_pushnumber L 1)

/-- The loop of `fail`: asks for diagnostic record `i`, `i + 1`, ... until the driver
answers `SQL_NO_DATA`, adding each message and a newline to the buffer `b`. -/
def fail_loop (H : Host σ) (type : Int) (handle : Nat) :
    Nat → Int → List Byte → lua_State σ → Res σ (List Byte)
  | 0, _, _, _ => .outOfFuel
  | fuel + 1, i, b, L =>
    let r := H.SQLGetDiagRec L.odbc type handle i
    let L1 := { L with odbc := r.2 }
    if r.1.ret = SQL_NO_DATA then .ok b L1
    else
      match luaL_addlstring b r.1.Msg r.1.MsgSize with
      | none => .undefined
      | some b1 => fail_loop H type handle fuel (toSQLSMALLINT (i + 1)) (b1 ++ [10]) L1

/-- Fails with error message from ODBC: pushes nil and the concatenated diagnostic
records of the handle, returns 2. -/
def fail (H : Host σ) (fuel : Nat) (L : lua_State σ) (type : Int) (handle : Nat) : Res σ Int :=
  (fail_loop H type handle fuel 1 [] (lua_pushnil L)).bind
    (fun b L1 => .ok 2 (lua_pushlstring L1 b))

/-- Modelled from the spec: `luasql_faildirect` of luasql.c, which is not under src/.
Section 7 of the spec: a failure surfaces the message alongside a null failure marker;
like `fail`, it pushes nil and the message and returns 2. -/
def luasql_faildirect (L : lua_State σ) (err : List Byte) : Res σ Int :=
  .ok 2 (lua_pushstring (lua_pushnil L) err)

/-- The length that `push_column` adds for a chunk whose indicator is `got`: a chunk
that fills the staging buffer or has no known total counts as a full buffer, less the
terminator when the target is `SQL_C_CHAR`. -/
def chunk_size (H : Host σ) (stype : Int) (got : Int) : Int :=
  if got ≥ H.LUAL_BUFFERSIZE ∨ got = SQL_NO_TOTAL then
    (if stype = SQL_C_CHAR then (H.LUAL_BUFFERSIZE : Int) - 1 else H.LUAL_BUFFERSIZE)
  else got

/-- The loop `while (rc == SQL_SUCCESS_WITH_INFO)` of `push_column`: adds the chunk that
is in the staging buffer and asks for the next one.  It returns the outputs of the last
retrieval and the contents of the `luaL_Buffer`. -/
def concat_chunks (H : Host σ) (hstmt : Nat) (i : Int) (stype : Int) :
    Nat → GetDataOut → List Byte → lua_State σ → Res σ (GetDataOut × List Byte)
  | 0, _, _, _ => .outOfFuel
  | fuel + 1, o, b, L =>
    if o.rc = SQL_SUCCESS_WITH_INFO then
      match luaL_addsize H b o.buffer (chunk_size H stype o.got) with
      | none => .undefined
      | some b1 =>
        let r := H.SQLGetData L.odbc hstmt i stype H.LUAL_BUFFERSIZE
        concat_chunks H hstmt i stype fuel r.1 b1 { L with odbc := r.2 }
    else .ok (o, b) L

/-- The `switch (type)` of `push_column`, entered once the type name has been looked up
and popped: deal with data according to type. -/
def push_column_switch (H : Host σ) (fuel : Nat) (L : lua_State σ) (hstmt : Nat) (i : Int)
    (type : Byte) : Res σ Int :=
  if type = 117 then
    -- case 'u': nUmber
    let r := H.SQLGetData L.odbc hstmt i SQL_C_DOUBLE 0
    let L1 := { L with odbc := r.2 }
    if error r.1.rc then fail H fuel L1 hSTMT hstmt
    else if r.1.got = SQL_NULL_DATA then .ok 0 (lua_pushnil L1)
    else .ok 0 (lua_pushnumber L1 r.1.num)
  else if type = 111 then
    -- case 'o': bOol
    let r := H.SQLGetData L.odbc hstmt i SQL_C_BIT 0
    let L1 := { L with odbc := r.2 }
    if error r.1.rc then fail H fuel L1 hSTMT hstmt
    else if r.1.got = SQL_NULL_DATA then .ok 0 (lua_pushnil L1)
    else .ok 0 (lua_pushstring L1 (if r.1.b != 0 then bytes "true" else bytes "false"))
  else if type = 116 ∨ type = 105 then
    -- case 't': sTring, case 'i': bInary
    let stype := if type = 116 then SQL_C_CHAR else SQL_C_BINARY
    let r := H.SQLGetData L.odbc hstmt i stype H.LUAL_BUFFERSIZE
    let L1 := { L with odbc := r.2 }
    if r.1.got = SQL_NULL_DATA then .ok 0 (lua_pushnil L1)
    else
      -- concat intermediary chunks
      (concat_chunks H hstmt i stype fuel r.1 [] L1).bind (fun ob L2 =>
        -- concat last chunk
        if ob.1.rc = SQL_SUCCESS then
          match luaL_addsize H ob.2 ob.1.buffer (chunk_size H stype ob.1.got) with
          | none => .undefined
          | some b1 => .ok 0 (lua_pushlstring L2 b1)
        else if ob.1.rc = SQL_ERROR then fail H fuel L2 hSTMT hstmt
        -- return everything we got
        else .ok 0 (lua_pushlstring L2 ob.2))
  else .ok 0 L

/-- Retrieves data from the i_th column in the current row.  Returns 0 if successful
(the value is on the top of the stack), non-zero otherwise. -/
def push_column (H : Host σ) (fuel : Nat) (L : lua_State σ) (colinfo : Int) (hstmt : Nat)
    (i : Int) : Res σ Int :=
  -- get column type from types table
  match (lua_rawgeti L LUA_REGISTRYINDEX colinfo).bind
      (fun L1 => (lua_rawgeti L1 (-1) i).bind (fun L2 => lua_rawget L2 (-2))) with
  | none => .undefined
  | some L3 =>
    match lua_tostring H L3 (-1) with
    | none => luasql_faildirect L3 (H.LUASQL_PREFIX ++ bytes "Invalid type in table.")
    | some tname =>
      -- `type = tname[1]`, where `tname` ends with a zero byte
      match (tname ++ [0]).get? 1 with
      | none => .undefined
      | some type => push_column_switch H fuel (lua_pop L3 2) hstmt i type

/-- The value that `push_column` finds as the type name of column `i`: the entry of the
column information table under the name stored at position `i`; `none` when the
reference `colinfo` holds no table. -/
def coltypename (L : lua_State σ) (colinfo : Int) (i : Int) : Option LuaValue :=
  match L.tables REGISTRY (.number colinfo) with
  | .table t => some (rawlookup (L.tables t) (L.tables t (.number i)))
  | _ => none

/-! ## Fetching rows -/

/-- The function `luaL_checkudata` followed by the two `luaL_argcheck` of `getcursor`:
check for valid cursor.  The error raised carries the text given to `luaL_argcheck`. -/
def getcursor (L : lua_State σ) : Res σ cur_data :=
  match index2adr L 1 with
  | some (.userdata id) =>
    match L.udata id with
    | .cur c => if c.closed then .raise (bytes "cursor is closed") L else .ok c L
    | _ => .raise (bytes "cursor expected") L
  | _ => .raise (bytes "cursor expected") L

/-- The function `luaL_optstring (L, narg, d)`: the default for an absent or nil
argument, the C string of a string or number argument, an error for any other. -/
def luaL_optstring (H : Host σ) (L : lua_State σ) (narg : Int) (d : List Byte) :
    Res σ (List Byte) :=
  match index2adr L narg with
  | none => .ok d L
  | some .nil => .ok d L
  | some (.string s) => .ok s L
  | some (.number n) => .ok (H.lua_number2str n) L
  | some _ => .raise (bytes "string expected") L

/-- The loop of `cur_fetch` under `strchr (opts, 'n')`: copy values to numerical
indices.  The result is the `ret` of the `push_column` that made the loop return, 0 when
the loop ran to its end. -/
def fetch_numerical (H : Host σ) (fuel0 : Nat) (cur : cur_data) (hstmt : Nat) :
    Nat → Int → lua_State σ → Res σ Int
  | 0, _, _ => .outOfFuel
  | fuel + 1, i, L =>
    if i ≤ cur.numcols then
      (push_column H fuel0 L cur.colinfo hstmt i).bind (fun ret L1 =>
        if ret ≠ 0 then .ok ret L1
        else
          match lua_rawseti L1 2 i with
          | none => .undefined
          | some L2 => fetch_numerical H fuel0 cur hstmt fuel (toSQLUSMALLINT (i + 1)) L2)
    else .ok 0 L

/-- The loop of `cur_fetch` under `strchr (opts, 'a')`: copy values to alphanumerical
indices.  Each round pushes the column information table and the name of the column,
reads the column, and ends with `lua_rawseti (L, 2, i)`. -/
def fetch_alphanumerical (H : Host σ) (fuel0 : Nat) (cur : cur_data) (hstmt : Nat) :
    Nat → Int → lua_State σ → Res σ Int
  | 0, _, _ => .outOfFuel
  | fuel + 1, i, L =>
    if i ≤ cur.numcols then
      match (lua_rawgeti L LUA_REGISTRYINDEX cur.colinfo).bind
          (fun L1 => lua_rawgeti L1 (-1) i) with
      | none => .undefined
      | some L2 =>
        (push_column H fuel0 L2 cur.colinfo hstmt i).bind (fun ret L3 =>
          if ret ≠ 0 then .ok ret L3
          else
            match lua_rawseti L3 2 i with
            | none => .undefined
            | some L4 =>
              fetch_alphanumerical H fuel0 cur hstmt fuel (toSQLUSMALLINT (i + 1)) L4)
    else .ok 0 L

/-- The loop of `cur_fetch` when no table is given: the values stay on the stack. -/
def fetch_values (H : Host σ) (fuel0 : Nat) (cur : cur_data) (hstmt : Nat) :
    Nat → Int → lua_State σ → Res σ Int
  | 0, _, _ => .outOfFuel
  | fuel + 1, i, L =>
    if i ≤ cur.numcols then
      (push_column H fuel0 L cur.colinfo hstmt i).bind (fun ret L1 =>
        if ret ≠ 0 then .ok ret L1
        else fetch_values H fuel0 cur hstmt fuel (toSQLUSMALLINT (i + 1)) L1)
    else .ok 0 L

/-- Get another row of the given cursor. -/
def cur_fetch (H : Host σ) (fuel : Nat) (L : lua_State σ) : Res σ Int :=
  (getcursor L).bind (fun cur L0 =>
    let hstmt := cur.hstmt
    let r := H.SQLFetch L0.odbc cur.hstmt
    let L1 := { L0 with odbc := r.2 }
    if r.1 = SQL_NO_DATA then .ok 1 (lua_pushnil L1)
    else
      -- `else if (error(rc)) fail(L, hSTMT, hstmt);` the value of `fail` is not returned
      (if error r.1 then fail H fuel L1 hSTMT hstmt else .ok 0 L1).bind (fun _ L2 =>
        if lua_istable L2 2 then
          (luaL_optstring H L2 3 (bytes "n")).bind (fun opts L3 =>
            (if strchr opts 110 then fetch_numerical H fuel cur hstmt fuel 1 L3
             else .ok 0 L3).bind (fun ret L4 =>
              if ret ≠ 0 then .ok ret L4
              else
                (if strchr opts 97 then fetch_alphanumerical H fuel cur hstmt fuel 1 L4
                 else .ok 0 L4).bind (fun ret L5 =>
                  if ret ≠ 0 then .ok ret L5
                  else
                    match lua_pushvalue L5 2 with
                    | none => .undefined
                    | some L6 => .ok 1 L6)))
        else
          (fetch_values H fuel cur hstmt fuel 1 L2).bind (fun ret L3 =>
            if ret ≠ 0 then .ok ret L3 else .ok cur.numcols L3)))

/-! ## Closing a cursor -/

/-- Closes a cursor. -/
def cur_close (H : Host σ) (fuel : Nat) (L : lua_State σ) : Res σ Int :=
  match index2adr L 1 with
  | some (.userdata id) =>
    match L.udata id with
    | .cur cur =>
      let hstmt := cur.hstmt
      if cur.closed then .ok 0 L
      else
        -- Decrement parent's cursor counter.
        match lua_rawgeti L LUA_REGISTRYINDEX cur.conn with
        | none => .undefined
        | some L1 =>
          match index2adr L1 (-1) with
          | some (.userdata cid) =>
            match L1.udata cid with
            | .conn conn =>
              let conn1 : conn_data :=
                { conn with cur_counter := toUnsigned ((conn.cur_counter : Int) - 1) }
              let L2 := { L1 with udata := Function.update L1.udata cid (.conn conn1) }
              -- Nullify structure fields.
              let cur1 : cur_data := { cur with closed := true }
              let L3 := { L2 with udata := Function.update L2.udata id (.cur cur1) }
              let r := H.SQLCloseCursor L3.odbc hstmt
              let L4 := { L3 with odbc := r.2 }
              if error r.1 then fail H fuel L4 hSTMT hstmt
              else
                let r1 := H.SQLFreeHandle L4.odbc hSTMT hstmt
                let L5 := { L4 with odbc := r1.2 }
                if error r1.1 then fail H fuel L5 hSTMT hstmt
                else
                  let L6 := luaL_unref (luaL_unref L5 cur.conn) cur.colinfo
                  let cur2 : cur_data := { cur1 with conn := LUA_NOREF }
                  let L7 := { L6 with udata := Function.update L6.udata id (.cur cur2) }
                  pass L7
            | _ => .undefined
          | _ => .undefined
    | _ => .undefined
  | _ => .undefined

/-! ## Column information, cursors and connections -/

def SQL_UNKNOWN_TYPE : Int := 0
def SQL_CHAR : Int := 1
def SQL_NUMERIC : Int := 2
def SQL_DECIMAL : Int := 3
def SQL_INTEGER : Int := 4
def SQL_SMALLINT : Int := 5
def SQL_FLOAT : Int := 6
def SQL_REAL : Int := 7
def SQL_DOUBLE : Int := 8
def SQL_DATE : Int := 9
def SQL_INTERVAL : Int := 10
def SQL_TIMESTAMP : Int := 11
def SQL_VARCHAR : Int := 12
def SQL_TYPE_DATE : Int := 91
def SQL_TYPE_TIME : Int := 92
def SQL_TYPE_TIMESTAMP : Int := 93
def SQL_LONGVARCHAR : Int := -1
def SQL_BINARY : Int := -2
def SQL_VARBINARY : Int := -3
def SQL_LONGVARBINARY : Int := -4
def SQL_BIGINT : Int := -5
def SQL_TINYINT : Int := -6
def SQL_BIT : Int := -7

/-- Returns the name of an equivalent lua type for a SQL type; `none` stands for the
`default:` branch, which is `assert(0)`. -/
def sqltypetolua (type : Int) : Option (List Byte) :=
  if type = SQL_UNKNOWN_TYPE ∨ type = SQL_CHAR ∨ type = SQL_VARCHAR
      ∨ type = SQL_TYPE_DATE ∨ type = SQL_TYPE_TIME ∨ type = SQL_TYPE_TIMESTAMP
      ∨ type = SQL_DATE ∨ type = SQL_INTERVAL ∨ type = SQL_TIMESTAMP
      ∨ type = SQL_LONGVARCHAR then
    some (bytes "string")
  else if type = SQL_BIGINT ∨ type = SQL_TINYINT ∨ type = SQL_NUMERIC
      ∨ type = SQL_DECIMAL ∨ type = SQL_INTEGER ∨ type = SQL_SMALLINT
      ∨ type = SQL_FLOAT ∨ type = SQL_REAL ∨ type = SQL_DOUBLE then
    some (bytes "number")
  else if type = SQL_BINARY ∨ type = SQL_VARBINARY ∨ type = SQL_LONGVARBINARY then
    some (bytes "binary")
  else if type = SQL_BIT then
    some (bytes "boolean")
  else none

/-- The loop of `create_colinfo`; the new table is on the top of the stack.  The return
code of `SQLDescribeCol` is not looked at. -/
def create_colinfo_loop (H : Host σ) (hstmt : Nat) (numcols : Int) :
    Nat → Int → lua_State σ → Res σ Unit
  | 0, _, _ => .outOfFuel
  | fuel + 1, i, L =>
    if i ≤ numcols then
      let r := H.SQLDescribeCol L.odbc hstmt i
      let L1 := lua_pushstring { L with odbc := r.2 } r.1.buffer
      match sqltypetolua r.1.datatype with
      | none => .abort
      | some tname =>
        match ((lua_pushvalue L1 (-1)).bind (fun L2 => lua_rawseti L2 (-3) i)).bind
            (fun L3 => lua_rawset (lua_pushstring L3 tname) (-3)) with
        | none => .undefined
        | some L4 => create_colinfo_loop H hstmt numcols fuel (i + 1) L4
    else .ok () L

/-- Creates a table with column information. -/
def create_colinfo (H : Host σ) (fuel : Nat) (L : lua_State σ) (hstmt : Nat) (numcols : Int) :
    Res σ Unit :=
  create_colinfo_loop H hstmt numcols fuel 1 (lua_newtable L)

/-- Creates a cursor table and leave it on the top of the stack.  The argument `conn`
of the C function is not used by its body. -/
def create_cursor (H : Host σ) (fuel : Nat) (L : lua_State σ) (hstmt : Nat) (numcols : Int) :
    Res σ Int :=
  -- allocate cursor userdatum
  let a := lua_newuserdata L
  -- fill with inherited stuff
  match (lua_pushvalue a.2 1).bind luaL_ref with
  | none => .undefined
  | some (conn, L1) =>
    -- make and store column information table
    (create_colinfo H fuel L1 hstmt numcols).bind (fun _ L2 =>
      match luaL_ref L2 with
      | none => .undefined
      | some (colinfo, L3) =>
        let cur : cur_data :=
          { closed := false, conn := conn, numcols := numcols, hstmt := hstmt,
            colinfo := colinfo }
        .ok 1 { L3 with udata := Function.update L3.udata a.1 (.cur cur) })

/-- Check for valid connection (`luaL_checkudata` and the two `luaL_argcheck` of
`getconnection`); gives the block and its id. -/
def getconnection (L : lua_State σ) : Res σ (Nat × conn_data) :=
  match index2adr L 1 with
  | some (.userdata id) =>
    match L.udata id with
    | .conn c => if c.closed then .raise (bytes "connection is closed") L else .ok (id, c) L
    | _ => .raise (bytes "connection expected") L
  | _ => .raise (bytes "connection expected") L

/-- The function `luaL_checkstring (L, narg)`. -/
def luaL_checkstring (H : Host σ) (L : lua_State σ) (narg : Int) : Res σ (List Byte) :=
  match index2adr L narg with
  | some (.string s) => .ok (cstr s) L
  | some (.number n) => .ok (cstr (H.lua_number2str n)) L
  | _ => .raise (bytes "string expected") L

/-- Executes a SQL statement.  Returns a cursor object if there are results, or the
number of rows affected by the statement if there are none. -/
def conn_execute (H : Host σ) (fuel : Nat) (L : lua_State σ) : Res σ Int :=
  (getconnection L).bind (fun c L0 =>
    (luaL_checkstring H L0 2).bind (fun statement L0 =>
      let hdbc := c.2.hdbc
      let r := H.SQLAllocHandle L0.odbc hSTMT hdbc
      let hstmt := r.1.2
      let L1 := { L0 with odbc := r.2 }
      if error r.1.1 then fail H fuel L1 hDBC hdbc
      else
        let r := H.SQLPrepare L1.odbc hstmt statement
        let L2 := { L1 with odbc := r.2 }
        if error r.1 then fail H fuel L2 hSTMT hstmt
        else
          -- execute the statement
          let r := H.SQLExecute L2.odbc hstmt
          let L3 := { L2 with odbc := r.2 }
          if error r.1 then fail H fuel L3 hSTMT hstmt
          else
            -- determine the number of results
            let r := H.SQLNumResultCols L3.odbc hstmt
            let numcols := toSQLSMALLINT r.1.2
            let L4 := { L3 with odbc := r.2 }
            if error r.1.1 then
              (fail H fuel L4 hSTMT hstmt).bind (fun ret L5 =>
                .ok ret { L5 with odbc := (H.SQLFreeHandle L5.odbc hSTMT hstmt).2 })
            else if numcols > 0 then
              -- if there is a results table (e.g., SELECT)
              create_cursor H fuel L4 hstmt numcols
            else
              -- if action has no results (e.g., UPDATE)
              let r := H.SQLRowCount L4.odbc hstmt
              let L5 := { L4 with odbc := r.2 }
              if error r.1.1 then
                (fail H fuel L5 hSTMT hstmt).bind (fun ret L6 =>
                  .ok ret { L6 with odbc := (H.SQLFreeHandle L6.odbc hSTMT hstmt).2 })
              else .ok 1 (lua_pushnumber L5 r.1.2)))

/-- Closes a connection. -/
def conn_close (H : Host σ) (fuel : Nat) (L : lua_State σ) : Res σ Int :=
  match index2adr L 1 with
  | some (.userdata id) =>
    match L.udata id with
    | .conn conn =>
      if conn.closed then .ok 0 L
      else if conn.cur_counter > 0 then
        .raise (H.LUASQL_PREFIX ++ bytes "unexpected error (ConnClose)") L
      else
        -- Decrement parent's connection counter.
        match lua_rawgeti L LUA_REGISTRYINDEX conn.env with
        | none => .undefined
        | some L1 =>
          match index2adr L1 (-1) with
          | some (.userdata eid) =>
            match L1.udata eid with
            | .env env =>
              let env1 : env_data :=
                { env with conn_counter := toUnsigned ((env.conn_counter : Int) - 1) }
              let L2 := { L1 with udata := Function.update L1.udata eid (.env env1) }
              -- Nullify structure fields.
              let conn1 : conn_data := { conn with closed := true }
              let L3 := { L2 with udata := Function.update L2.udata id (.conn conn1) }
              let conn2 : conn_data := { conn1 with env := LUA_NOREF }
              let L4 := luaL_unref L3 conn.env
              let L5 := { L4 with udata := Function.update L4.udata id (.conn conn2) }
              let r := H.SQLDisconnect L5.odbc conn.hdbc
              let L6 := { L5 with odbc := r.2 }
              if error r.1 then fail H fuel L6 hDBC conn.hdbc
              else
                let r1 := H.SQLFreeHandle L6.odbc hDBC conn.hdbc
                let L7 := { L6 with odbc := r1.2 }
                if error r1.1 then fail H fuel L7 hDBC conn.hdbc
                else
                  let conn3 : conn_data := { conn2 with hdbc := 0 }
                  pass { L7 with udata := Function.update L7.udata id (.conn conn3) }
            | _ => .undefined
          | _ => .undefined
    | _ => .undefined
  | _ => .undefined

/-! ## The row decoder in the words of the specification -/

/-- The column indices `i, i + 1, ..., i + n - 1`, ascending. -/
def colRange : Int → Nat → List Int
  | _, 0 => []
  | i, n + 1 => i :: colRange (i + 1) n

/-- The column indices `1..N` in strictly ascending order. -/
def columns (N : Nat) : List Int := colRange 1 N

/-- The row decoder as section 4.3 of the specification words it: for each logical
position `i` of the list, in order, invoke the field reader (`push_column`) on source
column `i`; `store i v` is what is done with the value `v` decoded for position `i`.
The result is the ordered row of the decoded values and the state left, `none` as soon
as a read does not deliver a value (a non-zero return, or no value pushed). -/
def decodeRow (H : Host σ) (fuel : Nat) (cur : cur_data)
    (store : Int → LuaValue → lua_State σ → lua_State σ) :
    List Int → lua_State σ → Option (List LuaValue × lua_State σ)
  | [], L => some ([], L)
  | i :: rest, L =>
    match push_column H fuel L cur.colinfo cur.hstmt i with
    | .ok ret L1 =>
      match L1.stack.getLast? with
      | some v =>
        if ret = 0 ∧ L1.stack = L.stack ++ [v] then
          (decodeRow H fuel cur store rest (store i v { L1 with stack := L.stack })).map
            (fun r => (v :: r.1, r.2))
        else none
      | none => none
    | _ => none

/-- The value of a position is returned to the caller: it stays on the stack. -/
def keepOnStack : Int → LuaValue → lua_State σ → lua_State σ :=
  fun _ v L => push L v

/-- The value of position `i` is stored under index `i` of the table `t`. -/
def storeAt (t : Nat) : Int → LuaValue → lua_State σ → lua_State σ :=
  fun i v L =>
    { L with tables := Function.update L.tables t (Function.update (L.tables t) (.number i) v) }

/-! ## A scripted driver and concrete states for the examples -/

/-- State of the scripted driver: the answers it will give to the coming calls of
`SQLGetData` and `SQLFetch`, the diagnostic records of its handles, the described
columns of the result set, and the log of the `SQLGetData` calls received so far
(column number and target type). -/
structure Script where
  getData : List GetDataOut
  fetch : List SQLRETURN
  diag : List (List Byte)
  cols : List (List Byte × Int)
  reads : List (Int × Int)

/-- A C buffer holding the bytes of `l`, zero elsewhere. -/
def listBuf (l : List Byte) : Nat → Byte := fun k => l.getD k 0

/-- The outputs of a `SQLGetData` call that writes nothing. -/
def noData : GetDataOut :=
  { rc := SQL_NO_DATA, got := 0, num := 0, b := 0, buffer := listBuf [] }

/-- A scripted driver with staging buffers of `B` bytes.  `SQLGetData` and `SQLFetch`
give the next scripted answer (`SQL_NO_DATA` when the script is over), `SQLGetDiagRec`
gives record `i` of `diag` and `SQL_NO_DATA` past the last one, every other call
succeeds. -/
def scriptHost (B : Nat) : Host Script where
  LUAL_BUFFERSIZE := B
  LUASQL_PREFIX := bytes "LuaSQL: "
  lua_number2str := fun _ => []
  SQLGetData := fun s _ i ty _ =>
    match s.getData with
    | [] => (noData, { s with reads := s.reads ++ [(i, ty)] })
    | o :: rest => (o, { s with getData := rest, reads := s.reads ++ [(i, ty)] })
  SQLGetDiagRec := fun s _ _ i =>
    if 1 ≤ i ∧ i.toNat ≤ s.diag.length then
      ({ ret := SQL_SUCCESS, Msg := listBuf (s.diag.getD (i.toNat - 1) []),
         MsgSize := (s.diag.getD (i.toNat - 1) []).length }, s)
    else ({ ret := SQL_NO_DATA, Msg := listBuf [], MsgSize := 0 }, s)
  SQLFetch := fun s _ =>
    match s.fetch with
    | [] => (SQL_NO_DATA, s)
    | r :: rest => (r, { s with fetch := rest })
  SQLCloseCursor := fun s _ => (SQL_SUCCESS, s)
  SQLFreeHandle := fun s _ _ => (SQL_SUCCESS, s)
  SQLAllocHandle := fun s _ _ => ((SQL_SUCCESS, 7), s)
  SQLPrepare := fun s _ _ => (SQL_SUCCESS, s)
  SQLExecute := fun s _ => (SQL_SUCCESS, s)
  SQLNumResultCols := fun s _ => ((SQL_SUCCESS, s.cols.length), s)
  SQLRowCount := fun s _ => ((SQL_SUCCESS, 0), s)
  SQLDescribeCol := fun s _ i =>
    ({ ret := SQL_SUCCESS, buffer := (s.cols.getD (i.toNat - 1) ([], 0)).1,
       datatype := (s.cols.getD (i.toNat - 1) ([], 0)).2 }, s)
  SQLDisconnect := fun s _ => (SQL_SUCCESS, s)

/-- A script with the given answers of `SQLGetData` and `SQLFetch` and the diagnostic
records `diag`. -/
def script (getData : List GetDataOut) (fetch : List SQLRETURN) (diag : List (List Byte)) :
    Script :=
  { getData := getData, fetch := fetch, diag := diag, cols := [], reads := [] }

/-- A successful single retrieval of the number `n`. -/
def numberOut (n : lua_Number) : GetDataOut :=
  { rc := SQL_SUCCESS, got := 8, num := n, b := 0, buffer := listBuf [] }

/-- A retrieval with return code `rc` and indicator `got` that leaves `l` in the staging
buffer. -/
def chunkOut (rc : SQLRETURN) (got : Int) (l : List Byte) : GetDataOut :=
  { rc := rc, got := got, num := 0, b := 0, buffer := listBuf l }

/-- The column information table of a result set with the columns `cols` (name and type
name, in order), as a Lua table: the names under 1..N, the type names under the names. -/
def colinfoTable (cols : List (List Byte × List Byte)) : Table := fun k =>
  match k with
  | .number n =>
    if 1 ≤ n then ((cols.get? (n.toNat - 1)).map (fun c => LuaValue.string c.1)).getD .nil
    else .nil
  | .string name =>
    ((cols.reverse.find? (fun c => c.1 == name)).map (fun c => LuaValue.string c.2)).getD .nil
  | _ => .nil

/-- The tables of the example states: the registry (reference 1 is the connection,
reference 2 the column information table, reference 3 the environment), the column
information table (table 1), and an empty table (table 2) for the caller. -/
def demoTables (cols : List (List Byte × List Byte)) : Nat → Table := fun t k =>
  if t = REGISTRY then
    (if k = .number 1 then .userdata 1 else if k = .number 2 then .table 1
     else if k = .number 3 then .userdata 3 else .nil)
  else if t = 1 then colinfoTable cols k
  else .nil

/-- The userdata of the example states: an open connection (userdata 1, with `cc` in
its cursor counter), a cursor on statement 7 with `numcols` columns (userdata 2) when
`withCursor` is set, and the environment (userdata 3). -/
def demoUData (cc : Nat) (withCursor : Bool) (numcols : Int) : Nat → UData := fun id =>
  if id = 1 then
    .conn { closed := false, cur_counter := cc, env := 3, auto_commit := 1, hdbc := 5 }
  else if id = 2 ∧ withCursor then
    .cur { closed := false, conn := 1, numcols := numcols, hstmt := 7, colinfo := 2 }
  else if id = 3 then
    .env { closed := false, conn_counter := 1, henv := 9 }
  else .raw

/-- An example state: a C function is called on the open cursor (userdata 2) with the
arguments `args`; the result set has the columns `cols`. -/
def demoState (cols : List (List Byte × List Byte)) (args : List LuaValue) (s : Script) :
    lua_State Script :=
  { stack := .userdata 2 :: args
    tables := demoTables cols
    ntables := 2
    udata := demoUData 1 true cols.length
    nudata := 3
    nref := 3
    odbc := s }

/-- An example state: a C function is called with the arguments `args` on a connection
(userdata 1) that has not executed any statement yet. -/
def connState (args : List LuaValue) (s : Script) : lua_State Script :=
  { stack := .userdata 1 :: args
    tables := demoTables []
    ntables := 2
    udata := demoUData 0 false 0
    nudata := 3
    nref := 3
    odbc := s }

/-- The return value of a run that returned. -/
def Res.ret? {σ α : Type} : Res σ α → Option α
  | .ok a _ => some a
  | _ => none

/-- The state a run left (`L0` when it left none). -/
def Res.state {σ α : Type} (r : Res σ α) (L0 : lua_State σ) : lua_State σ :=
  match r with
  | .ok _ L => L
  | .raise _ L => L
  | _ => L0

/-- The values handed to the Lua caller by a run of a C function. -/
def Res.values {σ : Type} : Res σ Int → Option (List LuaValue)
  | .ok n L => some (results n L)
  | _ => none

/-- The next call of a C function on the state `L`, with the arguments `args`. -/
def call (L : lua_State σ) (args : List LuaValue) : lua_State σ :=
  { L with stack := args }

/-! ## Chunked retrieval in the words of the specification -/

/-- The outputs of `n` consecutive retrievals
`SQLGetData (hstmt, i, stype, buffer, LUAL_BUFFERSIZE, &got)`, the first of them made in
the driver state `s`. -/
def retrievals (H : Host σ) (hstmt : Nat) (i : Int) (stype : Int) : Nat → σ → List GetDataOut
  | 0, _ => []
  | n + 1, s =>
    (H.SQLGetData s hstmt i stype H.LUAL_BUFFERSIZE).1 ::
      retrievals H hstmt i stype n (H.SQLGetData s hstmt i stype H.LUAL_BUFFERSIZE).2

/-- The driver state after these `n` retrievals. -/
def after_retrievals (H : Host σ) (hstmt : Nat) (i : Int) (stype : Int) : Nat → σ → σ
  | 0, s => s
  | n + 1, s =>
    after_retrievals H hstmt i stype n (H.SQLGetData s hstmt i stype H.LUAL_BUFFERSIZE).2

/-- The payload of a chunk in the words of the specification (section 4.2): a chunk
whose indicator says that it fills the staging buffer of `B` bytes, or that the length
is unknown, is a full buffer, less exactly one trailing terminator byte for a String and
with nothing stripped for a Binary; any other chunk is the bytes that the indicator
counts. -/
def chunk_payload (B : Nat) (isString : Bool) (o : GetDataOut) : List Byte :=
  if o.got = SQL_NO_TOTAL ∨ (B : Int) ≤ o.got then
    (if isString then (readBuffer o.buffer B).dropLast else readBuffer o.buffer B)
  else readBuffer o.buffer o.got.toNat

/-- The type name of a String or Binary column. -/
def chunked_tname (isString : Bool) : List Byte :=
  if isString then bytes "string" else bytes "binary"

/-- The retrieval target of a String or Binary column. -/
def chunked_stype (isString : Bool) : Int :=
  if isString then SQL_C_CHAR else SQL_C_BINARY

/-- Modelled from the spec: the source side of one chunked retrieval (section 4.2),
which belongs to the ODBC driver and not to the repository.  Of the value `v` that is
left to deliver, the source writes what fits the buffer of `buflen` bytes (for a
character target it keeps the last byte for the terminator it writes).  When all of `v`
fits, the status is plain success and the indicator is the length; otherwise the status
is success with more data and the indicator is the length that was left, or the
length-unknown sentinel when `noTotal` is set.  The second component is what is left to
deliver afterwards. -/
def deliver (noTotal : Bool) (stype : Int) (buflen : Int) (v : List Byte) :
    GetDataOut × List Byte :=
  let cap : Nat := if stype = SQL_C_CHAR then buflen.toNat - 1 else buflen.toNat
  let written : List Byte := if stype = SQL_C_CHAR then v.take cap ++ [0] else v.take cap
  if v.length ≤ cap then
    ({ rc := SQL_SUCCESS, got := v.length, num := 0, b := 0, buffer := listBuf written }, [])
  else
    ({ rc := SQL_SUCCESS_WITH_INFO, got := if noTotal then SQL_NO_TOTAL else v.length,
       num := 0, b := 0, buffer := listBuf written }, v.drop cap)

/-- Modelled from the spec: a source that delivers one field value in chunks (section
4.2), for staging buffers of `B` bytes.  Its state is the part of the value that is left
to deliver; `SQLGetData` is `deliver`, and no other entry point matters to a field
read (they succeed and report no diagnostic record). -/
def chunkSource (B : Nat) (noTotal : Bool) : Host (List Byte) where
  LUAL_BUFFERSIZE := B
  LUASQL_PREFIX := bytes "LuaSQL: "
  lua_number2str := fun _ => []
  SQLGetData := fun s _ _ stype buflen => deliver noTotal stype buflen s
  SQLGetDiagRec := fun s _ _ _ => ({ ret := SQL_NO_DATA, Msg := listBuf [], MsgSize := 0 }, s)
  SQLFetch := fun s _ => (SQL_SUCCESS, s)
  SQLCloseCursor := fun s _ => (SQL_SUCCESS, s)
  SQLFreeHandle := fun s _ _ => (SQL_SUCCESS, s)
  SQLAllocHandle := fun s _ _ => ((SQL_SUCCESS, 7), s)
  SQLPrepare := fun s _ _ => (SQL_SUCCESS, s)
  SQLExecute := fun s _ => (SQL_SUCCESS, s)
  SQLNumResultCols := fun s _ => ((SQL_SUCCESS, 1), s)
  SQLRowCount := fun s _ => ((SQL_SUCCESS, 0), s)
  SQLDescribeCol := fun s _ _ => ({ ret := SQL_SUCCESS, buffer := [], datatype := 1 }, s)
  SQLDisconnect := fun s _ => (SQL_SUCCESS, s)

/-- An example state like `demoState`, for a driver whose state is the value left to
deliver. -/
def valueState (cols : List (List Byte × List Byte)) (v : List Byte) : lua_State (List Byte) :=
  { stack := [.userdata 2]
    tables := demoTables cols
    ntables := 2
    udata := demoUData 1 true cols.length
    nudata := 3
    nref := 3
    odbc := v }

/-! ## Concrete inputs of the examples -/

/-- A result set with the single number column "x". -/
def colsX : List (List Byte × List Byte) := [(bytes "x", bytes "number")]

/-- A result set with the number column "x" and the string column "y". -/
def colsXY : List (List Byte × List Byte) :=
  [(bytes "x", bytes "number"), (bytes "y", bytes "string")]

/-- A result set with the single string column "s". -/
def colsS : List (List Byte × List Byte) := [(bytes "s", bytes "string")]

/-- A retrieval that fails with return code `rc`, leaving `got` in the indicator. -/
def failedOut (rc : SQLRETURN) (got : Int) : GetDataOut :=
  { rc := rc, got := got, num := 0, b := 0, buffer := listBuf [] }

/-- A state to fall back on for `Res.state`. -/
def noState : lua_State Script := demoState [] [] (script [] [] [])

/-- The driver of a SELECT that describes one result column, "x" of type SQL_INTEGER. -/
def selectX : Script :=
  { getData := [], fetch := [], diag := [], cols := [(bytes "x", SQL_INTEGER)], reads := [] }

/-- The `closed` flag of the cursor in userdata block `id`. -/
def cursor_closed (L : lua_State σ) (id : Nat) : Option Bool :=
  match L.udata id with
  | .cur c => some c.closed
  | _ => none

/-- The `closed` flag of the connection in userdata block `id`. -/
def connection_closed (L : lua_State σ) (id : Nat) : Option Bool :=
  match L.udata id with
  | .conn c => some c.closed
  | _ => none

/-- The counter `cur_counter` of the connection in userdata block `id`. -/
def cur_counter (L : lua_State σ) (id : Nat) : Option Nat :=
  match L.udata id with
  | .conn c => some c.cur_counter
  | _ => none

/-- The number of userdata blocks that hold a cursor which is not closed and whose
reference `conn` leads to the connection in userdata block `cid`. -/
def open_cursors (L : lua_State σ) (cid : Nat) : Nat :=
  ((List.range (L.nudata + 1)).filter (fun id =>
    match L.udata id with
    | .cur c => !c.closed && L.tables REGISTRY (.number c.conn) == .userdata cid
    | _ => false)).length

/-- The message of the error raised by a run, when it raised one. -/
def Res.raised? {σ α : Type} : Res σ α → Option (List Byte)
  | .raise msg _ => some msg
  | _ => none

/-- A row for the columns "x" and "y": the number 42 and the string "AB". -/
def rowXY : Script :=
  script [numberOut 42, chunkOut SQL_SUCCESS 2 [65, 66, 0]] [SQL_SUCCESS] []

/-- The cursor block of the example state for a result set of `n` columns. -/
def demoCursor (n : Int) : cur_data :=
  { closed := false, conn := 1, numcols := n, hstmt := 7, colinfo := 2 }

/-- The state that a run of the row decoder left (`L0` when it left none). -/
def decoded (r : Option (List LuaValue × lua_State σ)) (L0 : lua_State σ) : lua_State σ :=
  (r.getD ([], L0)).2

/-- A row for the columns "x" and "y" whose second read fails: the number 42, then
`SQL_ERROR`; the statement has the diagnostic record "E". -/
def rowXfail : Script :=
  script [numberOut 42, failedOut SQL_ERROR 0] [SQL_SUCCESS] [[69]]

/-- The state after column 1 of the row `rowXfail` has been decoded into table 2. -/
def afterFirstColumn : lua_State Script :=
  decoded (decodeRow (scriptHost 4) 3 (demoCursor 2) (storeAt 2) (columns 1)
    { demoState colsXY [.table 2] rowXfail with
      odbc := ((scriptHost 4).SQLFetch rowXfail 7).2 }) noState

/-- The state after the failed read of column 2 that follows. -/
def afterFailedColumn : lua_State Script :=
  (push_column (scriptHost 4) 3 afterFirstColumn 2 7 2).state noState

/-! ## The classification of native type codes in the words of the specification -/

/-- The four semantic types of section 3 of the specification. -/
inductive SemanticType where
  | string
  | number
  | binary
  | boolean
  deriving DecidableEq

/-- The type name that stands for a semantic type in the column information table. -/
def SemanticType.tname : SemanticType → List Byte
  | .string => bytes "string"
  | .number => bytes "number"
  | .binary => bytes "binary"
  | .boolean => bytes "boolean"

/-- The name of a described column: the C string in the name buffer. -/
def DescribeColOut.name (d : DescribeColOut) : List Byte := cstr d.buffer

/-- The head of a round of the loop of `cur_fetch` under `strchr (opts, 'a')`, before the
column is read: `lua_rawgeti (L, LUA_REGISTRYINDEX, cur->colinfo)` and
`lua_rawgeti (L, -1, i)` push the column information table and the name of column
`i`. -/
def push_name (cur : cur_data) (i : Int) (L : lua_State σ) : Option (lua_State σ) :=
  (lua_rawgeti L LUA_REGISTRYINDEX cur.colinfo).bind (fun L1 => lua_rawgeti L1 (-1) i)

/-- The rounds of that loop that deliver a value, for the columns `cols` and the caller's
table `t`: each round pushes the two values of `push_name`, which stay on the stack, and
then decodes its column as the row decoder `decodeRow` does, the value going where
`lua_rawseti (L, 2, i)` puts it.  The result is the values read, in order, and the state
that the rounds leave. -/
def decodeRowAlpha (H : Host σ) (fuel : Nat) (cur : cur_data) (t : Nat) :
    List Int → lua_State σ → Option (List LuaValue × lua_State σ)
  | [], L => some ([], L)
  | i :: rest, L =>
    match push_name cur i L with
    | none => none
    | some L0 =>
      match decodeRow H fuel cur (storeAt t) [i] L0 with
      | none => none
      | some r0 =>
        (decodeRowAlpha H fuel cur t rest r0.2).map (fun r => (r0.1 ++ r.1, r.2))

/-- The state in which `cur_fetch` is entered for a fetch of the row `rowXfail` into the
caller's table 2 in the mode "a". -/
def fetchNamed : lua_State Script :=
  demoState colsXY [.table 2, .string (bytes "a")] rowXfail

/-- The state after the by-name round of column 1 of that fetch. -/
def afterFirstNamed : lua_State Script :=
  decoded (decodeRowAlpha (scriptHost 4) 3 (demoCursor 2) 2 (columns 1)
    { fetchNamed with odbc := ((scriptHost 4).SQLFetch rowXfail 7).2 }) noState

/-- The state in which the by-name round of column 2 reads its column. -/
def beforeFailedNamed : lua_State Script :=
  (push_name (demoCursor 2) 2 afterFirstNamed).getD noState

/-- The state after the failed read of column 2 that follows. -/
def afterFailedNamed : lua_State Script :=
  (push_column (scriptHost 4) 3 beforeFailedNamed 2 7 2).state noState

/-! ## Lemmas on the Lua API and on the frame of `push_column` -/

theorem index2adr_registry (L : lua_State σ) :
    index2adr L LUA_REGISTRYINDEX = some (.table REGISTRY) := by
  simp [index2adr]

theorem index2adr_top (L : lua_State σ) (s : List LuaValue) (v : LuaValue) :
    index2adr { L with stack := s ++ [v] } (-1) = some v := by
  simp [index2adr, LUA_REGISTRYINDEX]

theorem index2adr_below_top (L : lua_State σ) (s : List LuaValue) (a b : LuaValue) :
    index2adr { L with stack := s ++ [a, b] } (-2) = some a := by
  simp [index2adr, LUA_REGISTRYINDEX]
  rw [List.getElem_append_right (by omega)]
  simp

/-- An absolute index that is on the stack stays where it is when values are pushed. -/
theorem index2adr_pos_append (L : lua_State σ) (s ext : List LuaValue) (n : Int) (v : LuaValue)
    (hn : 0 < n) (h : index2adr { L with stack := s } n = some v) :
    index2adr { L with stack := s ++ ext } n = some v := by
  have h1 : n ≠ LUA_REGISTRYINDEX := by simp [LUA_REGISTRYINDEX]; omega
  simp only [index2adr, h1, hn, if_true, if_false] at h ⊢
  rw [List.get?_eq_getElem?] at h ⊢
  rw [List.getElem?_append_left]
  · exact h
  · by_contra hc
    rw [List.getElem?_eq_none (by omega)] at h
    cases h

theorem fail_loop_frame (H : Host σ) (type : Int) (handle : Nat) :
    ∀ (fuel : Nat) (i : Int) (b : List Byte) (L : lua_State σ) (b1 : List Byte)
      (L1 : lua_State σ), fail_loop H type handle fuel i b L = .ok b1 L1 →
      L1 = { L with odbc := L1.odbc } := by
  intro fuel
  induction fuel with
  | zero => intro i b L b1 L1 h; simp [fail_loop] at h
  | succ n ih =>
    intro i b L b1 L1 h
    simp only [fail_loop] at h
    split at h
    · cases h; rfl
    · split at h
      · cases h
      · have := ih _ _ _ _ _ h
        rw [this]

theorem fail_frame (H : Host σ) (fuel : Nat) (L : lua_State σ) (type : Int) (handle : Nat)
    (r : Int) (L1 : lua_State σ) (h : fail H fuel L type handle = .ok r L1) :
    r = 2 ∧ ∃ d, L1 = { L with stack := L.stack ++ [.nil, .string d], odbc := L1.odbc } := by
  unfold fail at h
  cases hl : fail_loop H type handle fuel 1 [] (lua_pushnil L) with
  | ok b L2 =>
    rw [hl] at h
    simp only [Res.bind, Res.ok.injEq] at h
    obtain ⟨h1, h2⟩ := h
    refine ⟨h1.symm, b, ?_⟩
    have hf := fail_loop_frame H type handle _ _ _ _ _ _ hl
    subst h2
    rw [hf]
    simp [lua_pushlstring, lua_pushnil, push]
  | raise m L2 => rw [hl] at h; simp [Res.bind] at h
  | abort => rw [hl] at h; simp [Res.bind] at h
  | undefined => rw [hl] at h; simp [Res.bind] at h
  | outOfFuel => rw [hl] at h; simp [Res.bind] at h

theorem concat_chunks_frame (H : Host σ) (hstmt : Nat) (i : Int) (stype : Int) :
    ∀ (fuel : Nat) (o : GetDataOut) (b : List Byte) (L : lua_State σ)
      (ob : GetDataOut × List Byte) (L1 : lua_State σ),
      concat_chunks H hstmt i stype fuel o b L = .ok ob L1 →
      L1 = { L with odbc := L1.odbc } := by
  intro fuel
  induction fuel with
  | zero => intro o b L ob L1 h; simp [concat_chunks] at h
  | succ n ih =>
    intro o b L ob L1 h
    simp only [concat_chunks] at h
    split at h
    · split at h
      · cases h
      · have := ih _ _ _ _ _ h
        rw [this]
    · cases h; rfl

/-- What a run of the `switch` of `push_column` that returns leaves: the state it got
with another driver state and with values pushed; nothing on a zero return that found
no branch, one value on any other zero return, nil and a message on a non-zero return
(which is 2). -/
theorem push_column_switch_frame (H : Host σ) (fuel : Nat) (L : lua_State σ) (hstmt : Nat)
    (i : Int) (type : Byte) (r : Int) (L1 : lua_State σ)
    (h : push_column_switch H fuel L hstmt i type = .ok r L1) :
    ∃ ext, L1 = { L with stack := L.stack ++ ext, odbc := L1.odbc } ∧
      ((r = 0 ∧ ext.length ≤ 1) ∨ (r = 2 ∧ ∃ d, ext = [.nil, .string d])) := by
  unfold push_column_switch at h
  split at h
  · -- number
    simp only at h
    split at h
    · obtain ⟨h1, d, h2⟩ := fail_frame _ _ _ _ _ _ _ h
      exact ⟨_, by rw [h2], Or.inr ⟨h1, d, rfl⟩⟩
    · split at h <;> cases h <;>
        exact ⟨_, rfl, Or.inl ⟨rfl, by simp⟩⟩
  · split at h
    · -- boolean
      simp only at h
      split at h
      · obtain ⟨h1, d, h2⟩ := fail_frame _ _ _ _ _ _ _ h
        exact ⟨_, by rw [h2], Or.inr ⟨h1, d, rfl⟩⟩
      · split at h <;> cases h <;>
          exact ⟨_, rfl, Or.inl ⟨rfl, by simp⟩⟩
    · split at h
      · -- string, binary
        simp only at h
        generalize (if type = 116 then SQL_C_CHAR else SQL_C_BINARY) = stype at h
        split at h
        · cases h
          exact ⟨_, rfl, Or.inl ⟨rfl, by simp⟩⟩
        · cases hc : concat_chunks H hstmt i stype fuel
              (H.SQLGetData L.odbc hstmt i stype H.LUAL_BUFFERSIZE).1 []
              { L with odbc := (H.SQLGetData L.odbc hstmt i stype H.LUAL_BUFFERSIZE).2 } with
          | ok ob L2 =>
            rw [hc] at h
            have hf := concat_chunks_frame _ _ _ _ _ _ _ _ _ _ hc
            simp only [Res.bind] at h
            split at h
            · split at h
              · cases h
              · cases h
                rw [hf]
                exact ⟨_, rfl, Or.inl ⟨rfl, by simp⟩⟩
            · split at h
              · obtain ⟨h1, d, h2⟩ := fail_frame _ _ _ _ _ _ _ h
                refine ⟨_, ?_, Or.inr ⟨h1, d, rfl⟩⟩
                rw [h2, hf]
              · cases h
                rw [hf]
                exact ⟨_, rfl, Or.inl ⟨rfl, by simp⟩⟩
          | raise m L2 => rw [hc] at h; simp [Res.bind] at h
          | abort => rw [hc] at h; simp [Res.bind] at h
          | undefined => rw [hc] at h; simp [Res.bind] at h
          | outOfFuel => rw [hc] at h; simp [Res.bind] at h
      · cases h
        exact ⟨[], by simp, Or.inl ⟨rfl, by simp⟩⟩


/-- The three lookups at the head of `push_column`: the column information table and
the type name of column `i` are pushed. -/
theorem push_column_lookup (L : lua_State σ) (colinfo i : Int) (t : Nat)
    (ht : L.tables REGISTRY (.number colinfo) = .table t) :
    (lua_rawgeti L LUA_REGISTRYINDEX colinfo).bind
      (fun L1 => (lua_rawgeti L1 (-1) i).bind (fun L2 => lua_rawget L2 (-2))) =
    some { L with stack := L.stack ++
      [.table t, rawlookup (L.tables t) (L.tables t (.number i))] } := by
  simp only [lua_rawgeti, index2adr_registry, Option.bind, push, ht, index2adr_top]
  have h2 : index2adr { L with stack := L.stack ++ [LuaValue.table t] ++
      [L.tables t (LuaValue.number i)] } (-2) = some (.table t) := by
    have := index2adr_below_top L L.stack (.table t) (L.tables t (.number i))
    simpa using this
  simp only [lua_rawget, h2]
  simp

theorem push_column_lookup_none (L : lua_State σ) (colinfo i : Int)
    (ht : ∀ t, L.tables REGISTRY (.number colinfo) ≠ .table t) :
    (lua_rawgeti L LUA_REGISTRYINDEX colinfo).bind
      (fun L1 => (lua_rawgeti L1 (-1) i).bind (fun L2 => lua_rawget L2 (-2))) = none := by
  simp only [lua_rawgeti, index2adr_registry, Option.bind, push, index2adr_top]
  cases hv : L.tables REGISTRY (.number colinfo) <;> simp_all

theorem lua_pop_two (L : lua_State σ) (a b : LuaValue) :
    lua_pop { L with stack := L.stack ++ [a, b] } 2 = L := by
  simp [lua_pop]

/-- With the type name `tn` in the column information table, `push_column` is the
`switch` on the second character of `tn`, run on the state it was given. -/
theorem push_column_eq_switch (H : Host σ) (fuel : Nat) (L : lua_State σ) (colinfo : Int)
    (hstmt : Nat) (i : Int) (tn : List Byte) (type : Byte)
    (hty : coltypename L colinfo i = some (.string tn))
    (hc : (tn ++ [0]).get? 1 = some type) :
    push_column H fuel L colinfo hstmt i = push_column_switch H fuel L hstmt i type := by
  unfold coltypename at hty
  cases ht : L.tables REGISTRY (.number colinfo) <;> rw [ht] at hty <;> simp at hty
  rename_i t
  unfold push_column
  rw [push_column_lookup L colinfo i t ht]
  have hl : lua_tostring H { L with stack := L.stack ++
      [.table t, rawlookup (L.tables t) (L.tables t (.number i))] } (-1) = some tn := by
    have := index2adr_top L (L.stack ++ [.table t])
      (rawlookup (L.tables t) (L.tables t (.number i)))
    simp only [List.append_assoc, List.singleton_append] at this
    simp only [lua_tostring, this]
    rw [hty]
  simp only [hl, hc, lua_pop_two]

theorem push_column_frame (H : Host σ) (fuel : Nat) (L : lua_State σ) (colinfo : Int)
    (hstmt : Nat) (i : Int) (r : Int) (L1 : lua_State σ)
    (h : push_column H fuel L colinfo hstmt i = .ok r L1) :
    ∃ ext, L1 = { L with stack := L.stack ++ ext, odbc := L1.odbc } ∧
      ((r = 0 ∧ ext.length ≤ 1) ∨ (r = 2 ∧ ∃ pre d, ext = pre ++ [.nil, .string d])) := by
  by_cases ht : ∃ t, L.tables REGISTRY (.number colinfo) = .table t
  · obtain ⟨t, ht⟩ := ht
    unfold push_column at h
    rw [push_column_lookup L colinfo i t ht] at h
    simp only at h
    split at h
    · -- Invalid type in table
      simp only [luasql_faildirect, lua_pushstring, lua_pushnil, push, Res.ok.injEq] at h
      obtain ⟨h1, h2⟩ := h
      subst h2
      refine ⟨[.table t, rawlookup (L.tables t) (L.tables t (.number i)), .nil,
        .string (cstr (H.LUASQL_PREFIX ++ bytes "Invalid type in table."))], ?_,
        Or.inr ⟨h1.symm, [.table t, rawlookup (L.tables t) (L.tables t (.number i))], _, rfl⟩⟩
      simp
    · split at h
      · cases h
      · rw [lua_pop_two] at h
        obtain ⟨ext, h1, h2⟩ := push_column_switch_frame _ _ _ _ _ _ _ _ h
        refine ⟨ext, h1, ?_⟩
        rcases h2 with h2 | ⟨h2, d, h3⟩
        · exact Or.inl h2
        · exact Or.inr ⟨h2, [], d, by simpa using h3⟩
  · unfold push_column at h
    rw [push_column_lookup_none L colinfo i (fun t ht1 => ht ⟨t, ht1⟩)] at h
    cases h


/-! ## Field reader: NULL indicator on fixed-size retrievals -/

/-- C3: for a column whose type name in the column information table is "number" or
"boolean", if the retrieval (`SQLGetData` with target `SQL_C_DOUBLE`, respectively
`SQL_C_BIT`) succeeds and reports the indicator `SQL_NULL_DATA`, then `push_column`
returns 0 and pushes nil, whatever the driver left in `num`, `b` and the buffer. -/
theorem push_column_null_is_nil (H : Host σ) (fuel : Nat) (L : lua_State σ) (colinfo : Int)
    (hstmt : Nat) (i : Int) (tn : List Byte) (ctype : Int)
    (hty : coltypename L colinfo i = some (.string tn))
    (hcls : (tn = bytes "number" ∧ ctype = SQL_C_DOUBLE) ∨
      (tn = bytes "boolean" ∧ ctype = SQL_C_BIT))
    (hrc : error (H.SQLGetData L.odbc hstmt i ctype 0).1.rc = false)
    (hnull : (H.SQLGetData L.odbc hstmt i ctype 0).1.got = SQL_NULL_DATA) :
    push_column H fuel L colinfo hstmt i =
      .ok 0 (lua_pushnil { L with odbc := (H.SQLGetData L.odbc hstmt i ctype 0).2 }) := by
  rcases hcls with ⟨h1, h2⟩ | ⟨h1, h2⟩
  · subst h1 h2
    rw [push_column_eq_switch H fuel L colinfo hstmt i _ 117 hty (by decide)]
    simp [push_column_switch, hrc, hnull]
  · subst h1 h2
    rw [push_column_eq_switch H fuel L colinfo hstmt i _ 111 hty (by decide)]
    simp [push_column_switch, hrc, hnull]

/-- Witness of C3: a NULL number in column 1 while the driver left 99 in `num`. -/
theorem push_column_null_is_nil_witness :
    push_column (scriptHost 4) 3
        (demoState [(bytes "x", bytes "number")] []
          (script [{ rc := SQL_SUCCESS, got := SQL_NULL_DATA, num := 99, b := 1,
                     buffer := listBuf [1, 2, 3] }] [] []))
        2 7 1 =
      .ok 0 (lua_pushnil { demoState [(bytes "x", bytes "number")] []
          (script [{ rc := SQL_SUCCESS, got := SQL_NULL_DATA, num := 99, b := 1,
                     buffer := listBuf [1, 2, 3] }] [] []) with
        odbc := ((scriptHost 4).SQLGetData
          (script [{ rc := SQL_SUCCESS, got := SQL_NULL_DATA, num := 99, b := 1,
                     buffer := listBuf [1, 2, 3] }] [] []) 7 1 SQL_C_DOUBLE 0).2 }) :=
  push_column_null_is_nil (scriptHost 4) 3 _ 2 7 1 (bytes "number") SQL_C_DOUBLE
    (by decide) (Or.inl ⟨rfl, rfl⟩) (by decide) (by decide)

/-! ## Field reader: chunked retrieval -/

theorem readBuffer_dropLast (buffer : Nat → Byte) (n : Nat) :
    (readBuffer buffer n).dropLast = readBuffer buffer (n - 1) := by
  cases n with
  | zero => simp [readBuffer]
  | succ k => simp [readBuffer, List.range_succ]

theorem readBuffer_listBuf (l r : List Byte) (n : Nat) (hn : n ≤ l.length) :
    readBuffer (listBuf (l ++ r)) n = l.take n := by
  apply List.ext_getElem
  · simp [readBuffer, hn]
  · intro k h1 h2
    simp only [readBuffer, List.length_map, List.length_range] at h1
    simp [readBuffer, listBuf, List.getD_eq_getElem?_getD, List.getElem?_append_left (by omega : k < l.length),
      List.getElem?_eq_getElem (by omega : k < l.length)]

/-- On a chunk with a byte count or the length-unknown sentinel, `luaL_addsize` with the
size computed by `push_column` adds the payload the specification gives for it. -/
theorem addsize_chunk_payload (H : Host σ) (isString : Bool) (b : List Byte) (o : GetDataOut)
    (hB : 0 < H.LUAL_BUFFERSIZE) (hgot : 0 ≤ o.got ∨ o.got = SQL_NO_TOTAL) :
    luaL_addsize H b o.buffer (chunk_size H (chunked_stype isString) o.got) =
      some (b ++ chunk_payload H.LUAL_BUFFERSIZE isString o) := by
  unfold luaL_addsize chunk_size chunk_payload chunked_stype
  by_cases hfull : o.got = SQL_NO_TOTAL ∨ (H.LUAL_BUFFERSIZE : Int) ≤ o.got
  · have hfull2 : o.got ≥ (H.LUAL_BUFFERSIZE : Int) ∨ o.got = SQL_NO_TOTAL := by
      rcases hfull with h | h
      · exact Or.inr h
      · exact Or.inl h
    cases isString
    · simp [hfull, hfull2, SQL_C_CHAR, SQL_C_BINARY]
    · simp only [hfull, hfull2, if_true, readBuffer_dropLast]
      have h1 : (0 : Int) ≤ (H.LUAL_BUFFERSIZE : Int) - 1 ∧
          (H.LUAL_BUFFERSIZE : Int) - 1 ≤ H.LUAL_BUFFERSIZE := by omega
      have h2 : ((H.LUAL_BUFFERSIZE : Int) - 1).toNat = H.LUAL_BUFFERSIZE - 1 := by omega
      simp [h1, h2]
  · have hfull2 : ¬ (o.got ≥ (H.LUAL_BUFFERSIZE : Int) ∨ o.got = SQL_NO_TOTAL) := by
      intro h
      rcases h with h | h
      · exact hfull (Or.inr h)
      · exact hfull (Or.inl h)
    have h0 : 0 ≤ o.got := by
      rcases hgot with h | h
      · exact h
      · exact absurd (Or.inl h) hfull
    have h1 : o.got ≤ H.LUAL_BUFFERSIZE := by
      have : ¬ (H.LUAL_BUFFERSIZE : Int) ≤ o.got := fun h => hfull (Or.inr h)
      omega
    simp [hfull, hfull2, h0, h1]
/-- The chunk loop of `push_column` on a run of retrievals: when the chunk at hand and
the next `n - 1` retrievals report success with more data and the one after them does
not, the loop ends on that last retrieval, having added the payloads of all the others
in retrieval order. -/
theorem concat_chunks_run (H : Host σ) (hstmt : Nat) (i : Int) (isString : Bool)
    (hB : 0 < H.LUAL_BUFFERSIZE) :
    ∀ (n fuel : Nat) (o : GetDataOut) (b : List Byte) (L : lua_State σ), n < fuel →
      (∀ o1 ∈ (o :: retrievals H hstmt i (chunked_stype isString) n L.odbc).take n,
        o1.rc = SQL_SUCCESS_WITH_INFO ∧ (0 ≤ o1.got ∨ o1.got = SQL_NO_TOTAL)) →
      (∀ o1 ∈ (o :: retrievals H hstmt i (chunked_stype isString) n L.odbc).drop n,
        o1.rc ≠ SQL_SUCCESS_WITH_INFO) →
      ∃ last, (o :: retrievals H hstmt i (chunked_stype isString) n L.odbc).drop n = [last] ∧
        concat_chunks H hstmt i (chunked_stype isString) fuel o b L =
          .ok (last, b ++ (((o :: retrievals H hstmt i (chunked_stype isString) n L.odbc).take n).map
              (chunk_payload H.LUAL_BUFFERSIZE isString)).flatten)
            { L with odbc := after_retrievals H hstmt i (chunked_stype isString) n L.odbc } := by
  intro n
  induction n with
  | zero =>
    intro fuel o b L hf _ hlast
    refine ⟨o, by simp [retrievals], ?_⟩
    obtain ⟨k, rfl⟩ : ∃ k, fuel = k + 1 := ⟨fuel - 1, by omega⟩
    have h1 : o.rc ≠ SQL_SUCCESS_WITH_INFO := hlast o (by simp [retrievals])
    simp [concat_chunks, h1, after_retrievals]
  | succ n ih =>
    intro fuel o b L hf hinit hlast
    obtain ⟨k, rfl⟩ : ∃ k, fuel = k + 1 := ⟨fuel - 1, by omega⟩
    have ho := hinit o (by simp)
    simp only [retrievals, List.take_succ_cons, List.drop_succ_cons] at hinit hlast ⊢
    obtain ⟨last, h1, h2⟩ := ih k (H.SQLGetData L.odbc hstmt i (chunked_stype isString)
      H.LUAL_BUFFERSIZE).1 (b ++ chunk_payload H.LUAL_BUFFERSIZE isString o)
      { L with odbc := (H.SQLGetData L.odbc hstmt i (chunked_stype isString)
        H.LUAL_BUFFERSIZE).2 } (by omega)
      (fun o1 h => hinit o1 (List.mem_cons_of_mem _ h)) hlast
    refine ⟨last, h1, ?_⟩
    simp only [concat_chunks, ho.1, if_true, addsize_chunk_payload H isString b o hB ho.2]
    rw [h2]
    simp [after_retrievals]
/-- The `switch` of `push_column` on a String or Binary column delivered in `n + 1`
chunks. -/
theorem push_column_switch_chunks (H : Host σ) (fuel : Nat) (L : lua_State σ) (hstmt : Nat)
    (i : Int) (isString : Bool) (n : Nat) (hB : 0 < H.LUAL_BUFFERSIZE) (hf : n < fuel)
    (hmore : ∀ o ∈ (retrievals H hstmt i (chunked_stype isString) (n + 1) L.odbc).take n,
      o.rc = SQL_SUCCESS_WITH_INFO)
    (hlast : ∀ o ∈ (retrievals H hstmt i (chunked_stype isString) (n + 1) L.odbc).drop n,
      o.rc = SQL_SUCCESS)
    (hgot : ∀ o ∈ retrievals H hstmt i (chunked_stype isString) (n + 1) L.odbc,
      0 ≤ o.got ∨ o.got = SQL_NO_TOTAL) :
    push_column_switch H fuel L hstmt i (if isString then 116 else 105) =
      .ok 0 (lua_pushlstring
        { L with odbc := after_retrievals H hstmt i (chunked_stype isString) (n + 1) L.odbc }
        ((retrievals H hstmt i (chunked_stype isString) (n + 1) L.odbc).map
          (chunk_payload H.LUAL_BUFFERSIZE isString)).flatten) := by
  have hty : (if (if isString then (116 : Byte) else 105) = 116 then SQL_C_CHAR else SQL_C_BINARY)
      = chunked_stype isString := by
    cases isString <;> simp [chunked_stype]
  have hbr : (if isString then (116 : Byte) else 105) ≠ 117 ∧
      (if isString then (116 : Byte) else 105) ≠ 111 ∧
      ((if isString then (116 : Byte) else 105) = 116 ∨
        (if isString then (116 : Byte) else 105) = 105) := by
    cases isString <;> simp
  unfold push_column_switch
  simp only [hbr.1, hbr.2.1, hbr.2.2, if_true, if_false, hty]
  set o := (H.SQLGetData L.odbc hstmt i (chunked_stype isString) H.LUAL_BUFFERSIZE).1 with ho
  set s1 := (H.SQLGetData L.odbc hstmt i (chunked_stype isString) H.LUAL_BUFFERSIZE).2 with hs1
  have hrs : retrievals H hstmt i (chunked_stype isString) (n + 1) L.odbc =
      o :: retrievals H hstmt i (chunked_stype isString) n s1 := rfl
  rw [hrs] at hmore hlast hgot
  have hnull : o.got ≠ SQL_NULL_DATA := by
    have := hgot o (by simp)
    simp only [SQL_NULL_DATA, SQL_NO_TOTAL] at this ⊢
    omega
  obtain ⟨last, h1, h2⟩ := concat_chunks_run H hstmt i isString hB n fuel o []
    { L with odbc := s1 } hf
    (fun o1 h => ⟨hmore o1 h, hgot o1 (List.mem_of_mem_take h)⟩)
    (fun o1 h => by rw [hlast o1 h]; simp [SQL_SUCCESS, SQL_SUCCESS_WITH_INFO])
  simp only [hnull, if_false, h2, Res.bind]
  have hl : last.rc = SQL_SUCCESS := hlast last (by simp [h1])
  have hlg := hgot last (List.mem_of_mem_drop (by rw [h1]; simp))
  simp only [hl, if_true, addsize_chunk_payload H isString _ last hB hlg]
  congr 2
  rw [hrs]
  conv_rhs => rw [← List.take_append_drop n (o :: retrievals H hstmt i (chunked_stype isString) n s1)]
  rw [List.map_append, List.flatten_append, h1]
  simp
/-- The payload of what `deliver` writes for a value that fits the buffer. -/
theorem deliver_last (B : Nat) (noTotal isString : Bool) (v : List Byte)
    (hfit : v.length ≤ (if isString then B - 1 else B)) (hB : 2 ≤ B) :
    (deliver noTotal (chunked_stype isString) B v).1.rc = SQL_SUCCESS ∧
    (0 ≤ (deliver noTotal (chunked_stype isString) B v).1.got ∨
      (deliver noTotal (chunked_stype isString) B v).1.got = SQL_NO_TOTAL) ∧
    chunk_payload B isString (deliver noTotal (chunked_stype isString) B v).1 = v ∧
    (deliver noTotal (chunked_stype isString) B v).2 = [] := by
  cases isString
  · simp only [Bool.false_eq_true, if_false] at hfit
    have e : ¬ ((-2 : Int) = 1) := by decide
    simp only [deliver, chunked_stype, SQL_C_CHAR, SQL_C_BINARY, Bool.false_eq_true, if_false,
      e, Int.toNat_ofNat, hfit, if_true, chunk_payload, SQL_NO_TOTAL]
    refine ⟨trivial, Or.inl (by omega), ?_, trivial⟩
    have h1 : ¬ ((v.length : Int) = -4) := by omega
    have hr := readBuffer_listBuf v [] v.length (le_refl _)
    simp only [List.append_nil, List.take_length] at hr
    by_cases h2 : (B : Int) ≤ (v.length : Int)
    · have h3 : v.length = B := by omega
      simp [h1, h2, List.take_of_length_le hfit, ← h3, hr]
    · simp [h1, h2, List.take_of_length_le hfit, hr]
  · simp only [if_true] at hfit
    simp only [deliver, chunked_stype, SQL_C_CHAR, if_true, Int.toNat_ofNat, hfit,
      chunk_payload, SQL_NO_TOTAL]
    refine ⟨trivial, Or.inl (by omega), ?_, trivial⟩
    have h1 : ¬ ((v.length : Int) = -4) := by omega
    have h2 : ¬ (B : Int) ≤ (v.length : Int) := by omega
    have hr := readBuffer_listBuf v [0] v.length (le_refl _)
    simp only [List.take_length] at hr
    simp [h1, h2, List.take_of_length_le hfit, hr]

/-- The payload of what `deliver` writes for a value that does not fit the buffer. -/
theorem deliver_more (B : Nat) (noTotal isString : Bool) (v : List Byte)
    (hfit : ¬ v.length ≤ (if isString then B - 1 else B)) (hB : 2 ≤ B) :
    (deliver noTotal (chunked_stype isString) B v).1.rc = SQL_SUCCESS_WITH_INFO ∧
    (0 ≤ (deliver noTotal (chunked_stype isString) B v).1.got ∨
      (deliver noTotal (chunked_stype isString) B v).1.got = SQL_NO_TOTAL) ∧
    chunk_payload B isString (deliver noTotal (chunked_stype isString) B v).1 =
      v.take (if isString then B - 1 else B) ∧
    (deliver noTotal (chunked_stype isString) B v).2 =
      v.drop (if isString then B - 1 else B) := by
  cases isString
  · simp only [Bool.false_eq_true, if_false] at hfit
    have e : ¬ ((-2 : Int) = 1) := by decide
    simp only [deliver, chunked_stype, SQL_C_CHAR, SQL_C_BINARY, Bool.false_eq_true, if_false,
      e, Int.toNat_ofNat, hfit, chunk_payload, SQL_NO_TOTAL]
    refine ⟨trivial, ?_, ?_, trivial⟩
    · cases noTotal
      · exact Or.inl (by simp)
      · exact Or.inr (by simp)
    · have hfull : (if noTotal = true then (-4 : Int) else (v.length : Int)) = -4 ∨
          (B : Int) ≤ (if noTotal = true then (-4 : Int) else (v.length : Int)) := by
        cases noTotal
        · right; simp; omega
        · left; simp
      have hr := readBuffer_listBuf (v.take B) [] B (by simp; omega)
      simp only [List.append_nil] at hr
      simp only [hfull, if_true, hr]
      simp
  · simp only [if_true] at hfit
    simp only [deliver, chunked_stype, SQL_C_CHAR, if_true, Int.toNat_ofNat, hfit, if_false,
      chunk_payload, SQL_NO_TOTAL]
    refine ⟨trivial, ?_, ?_, trivial⟩
    · cases noTotal
      · exact Or.inl (by simp)
      · exact Or.inr (by simp)
    · have hfull : (if noTotal = true then (-4 : Int) else (v.length : Int)) = -4 ∨
          (B : Int) ≤ (if noTotal = true then (-4 : Int) else (v.length : Int)) := by
        cases noTotal
        · right; simp; omega
        · left; simp
      have hr := readBuffer_listBuf (v.take (B - 1)) [0] (B - 1) (by simp; omega)
      simp only [hfull, if_true, readBuffer_dropLast, hr]
      simp
/-- The modelled source delivers a value of any length in finitely many chunks: all but
the last report success with more data, the last plain success, and the payloads put
together are the value. -/
theorem chunkSource_chunks (B : Nat) (noTotal isString : Bool) (hstmt : Nat) (i : Int)
    (hB : 2 ≤ B) :
    ∀ (k : Nat) (v : List Byte), v.length ≤ k →
      ∃ n, n ≤ v.length ∧
        (∀ o ∈ (retrievals (chunkSource B noTotal) hstmt i (chunked_stype isString) (n + 1) v).take n,
          o.rc = SQL_SUCCESS_WITH_INFO) ∧
        (∀ o ∈ (retrievals (chunkSource B noTotal) hstmt i (chunked_stype isString) (n + 1) v).drop n,
          o.rc = SQL_SUCCESS) ∧
        (∀ o ∈ retrievals (chunkSource B noTotal) hstmt i (chunked_stype isString) (n + 1) v,
          0 ≤ o.got ∨ o.got = SQL_NO_TOTAL) ∧
        ((retrievals (chunkSource B noTotal) hstmt i (chunked_stype isString) (n + 1) v).map
          (chunk_payload B isString)).flatten = v ∧
        after_retrievals (chunkSource B noTotal) hstmt i (chunked_stype isString) (n + 1) v = [] := by
  intro k
  induction k with
  | zero =>
    intro v hv
    have hfit : v.length ≤ (if isString then B - 1 else B) := by
      cases isString <;> simp <;> omega
    obtain ⟨h1, h2, h3, h4⟩ := deliver_last B noTotal isString v hfit hB
    refine ⟨0, by omega, by simp, ?_, ?_, ?_, ?_⟩
    · simp only [retrievals, List.drop_zero, List.mem_singleton]
      intro o ho; subst ho; exact h1
    · simp only [retrievals, List.mem_singleton]
      intro o ho; subst ho; exact h2
    · simp only [retrievals, List.map_cons, List.map_nil, List.flatten_cons, List.flatten_nil,
        List.append_nil]
      exact h3
    · simp only [after_retrievals]
      exact h4
  | succ k ih =>
    intro v hv
    by_cases hfit : v.length ≤ (if isString then B - 1 else B)
    · obtain ⟨h1, h2, h3, h4⟩ := deliver_last B noTotal isString v hfit hB
      refine ⟨0, by omega, by simp, ?_, ?_, ?_, ?_⟩
      · simp only [retrievals, List.drop_zero, List.mem_singleton]
        intro o ho; subst ho; exact h1
      · simp only [retrievals, List.mem_singleton]
        intro o ho; subst ho; exact h2
      · simp only [retrievals, List.map_cons, List.map_nil, List.flatten_cons, List.flatten_nil,
          List.append_nil]
        exact h3
      · simp only [after_retrievals]
        exact h4
    · obtain ⟨h1, h2, h3, h4⟩ := deliver_more B noTotal isString v hfit hB
      have hcap : 1 ≤ (if isString then B - 1 else B) := by
        cases isString <;> simp <;> omega
      have hlen : (v.drop (if isString then B - 1 else B)).length ≤ k := by
        simp only [List.length_drop]; omega
      obtain ⟨n, g0, g1, g2, g3, g4, g5⟩ := ih _ hlen
      have hstep : ∀ m, retrievals (chunkSource B noTotal) hstmt i (chunked_stype isString) (m + 1) v =
          (deliver noTotal (chunked_stype isString) B v).1 ::
            retrievals (chunkSource B noTotal) hstmt i (chunked_stype isString) m
              (v.drop (if isString then B - 1 else B)) := by
        intro m
        rw [← h4]; rfl
      refine ⟨n + 1, ?_, ?_, ?_, ?_, ?_, ?_⟩
      · simp only [List.length_drop] at g0; omega
      · rw [hstep, List.take_succ_cons]
        intro o ho
        rcases List.mem_cons.mp ho with ho | ho
        · subst ho; exact h1
        · exact g1 o ho
      · rw [hstep, List.drop_succ_cons]
        exact g2
      · rw [hstep]
        intro o ho
        rcases List.mem_cons.mp ho with ho | ho
        · subst ho; exact h2
        · exact g3 o ho
      · rw [hstep, List.map_cons, List.flatten_cons, g4, h3, List.take_append_drop]
      · have : after_retrievals (chunkSource B noTotal) hstmt i (chunked_stype isString) (n + 1 + 1) v =
            after_retrievals (chunkSource B noTotal) hstmt i (chunked_stype isString) (n + 1)
              (v.drop (if isString then B - 1 else B)) := by
          rw [← h4]; rfl
        rw [this, g5]
theorem chunked_tname_type (isString : Bool) :
    (chunked_tname isString ++ [0]).get? 1 = some (if isString then 116 else 105) := by
  cases isString <;> decide

/-- C1: (1) for a String or Binary column that the source delivers in `n + 1` chunks
(the first `n` retrievals return success with more data, the last plain success, each
with a byte count or the length-unknown indicator; more than one chunk is `1 ≤ n`),
`push_column` returns 0 and pushes exactly the concatenation, in retrieval order, of the
payloads of the chunks, where a full String chunk is its staging buffer less one
trailing terminator byte and nothing is stripped from a Binary chunk.  (2) Consequently,
when a source delivers a value `v` by chunks (`chunkSource`), `push_column` decodes `v`
itself for every buffer capacity `B` of at least 2 bytes, which is also what it decodes
with a capacity `B1` that holds `v` in a single chunk. -/
theorem push_column_concatenates_chunks :
    (∀ (H : Host σ) (fuel : Nat) (L : lua_State σ) (colinfo : Int) (hstmt : Nat) (i : Int)
        (isString : Bool) (n : Nat),
      coltypename L colinfo i = some (.string (chunked_tname isString)) →
      0 < H.LUAL_BUFFERSIZE → n < fuel →
      (∀ o ∈ (retrievals H hstmt i (chunked_stype isString) (n + 1) L.odbc).take n,
        o.rc = SQL_SUCCESS_WITH_INFO) →
      (∀ o ∈ (retrievals H hstmt i (chunked_stype isString) (n + 1) L.odbc).drop n,
        o.rc = SQL_SUCCESS) →
      (∀ o ∈ retrievals H hstmt i (chunked_stype isString) (n + 1) L.odbc,
        0 ≤ o.got ∨ o.got = SQL_NO_TOTAL) →
      push_column H fuel L colinfo hstmt i =
        .ok 0 (lua_pushlstring
          { L with odbc := after_retrievals H hstmt i (chunked_stype isString) (n + 1) L.odbc }
          ((retrievals H hstmt i (chunked_stype isString) (n + 1) L.odbc).map
            (chunk_payload H.LUAL_BUFFERSIZE isString)).flatten)) ∧
    (∀ (B B1 : Nat) (noTotal isString : Bool) (v : List Byte) (fuel : Nat)
        (L : lua_State (List Byte)) (colinfo : Int) (hstmt : Nat) (i : Int),
      coltypename L colinfo i = some (.string (chunked_tname isString)) →
      L.odbc = v → 2 ≤ B → 2 ≤ B1 → v.length < B1 → v.length < fuel →
      push_column (chunkSource B noTotal) fuel L colinfo hstmt i =
        .ok 0 (lua_pushlstring { L with odbc := [] } v) ∧
      (deliver noTotal (chunked_stype isString) B1 v).1.rc = SQL_SUCCESS ∧
      push_column (chunkSource B1 noTotal) fuel L colinfo hstmt i =
        push_column (chunkSource B noTotal) fuel L colinfo hstmt i) := by
  have part1 : ∀ (τ : Type) (H : Host τ) (fuel : Nat) (L : lua_State τ) (colinfo : Int)
      (hstmt : Nat) (i : Int) (isString : Bool) (n : Nat),
      coltypename L colinfo i = some (.string (chunked_tname isString)) →
      0 < H.LUAL_BUFFERSIZE → n < fuel →
      (∀ o ∈ (retrievals H hstmt i (chunked_stype isString) (n + 1) L.odbc).take n,
        o.rc = SQL_SUCCESS_WITH_INFO) →
      (∀ o ∈ (retrievals H hstmt i (chunked_stype isString) (n + 1) L.odbc).drop n,
        o.rc = SQL_SUCCESS) →
      (∀ o ∈ retrievals H hstmt i (chunked_stype isString) (n + 1) L.odbc,
        0 ≤ o.got ∨ o.got = SQL_NO_TOTAL) →
      push_column H fuel L colinfo hstmt i =
        .ok 0 (lua_pushlstring
          { L with odbc := after_retrievals H hstmt i (chunked_stype isString) (n + 1) L.odbc }
          ((retrievals H hstmt i (chunked_stype isString) (n + 1) L.odbc).map
            (chunk_payload H.LUAL_BUFFERSIZE isString)).flatten) := by
    intro τ H fuel L colinfo hstmt i isString n hty hB hf hmore hlast hgot
    rw [push_column_eq_switch H fuel L colinfo hstmt i _ _ hty (chunked_tname_type isString)]
    exact push_column_switch_chunks H fuel L hstmt i isString n hB hf hmore hlast hgot
  have part2 : ∀ (B : Nat) (noTotal isString : Bool) (v : List Byte) (fuel : Nat)
      (L : lua_State (List Byte)) (colinfo : Int) (hstmt : Nat) (i : Int),
      coltypename L colinfo i = some (.string (chunked_tname isString)) →
      L.odbc = v → 2 ≤ B → v.length < fuel →
      push_column (chunkSource B noTotal) fuel L colinfo hstmt i =
        .ok 0 (lua_pushlstring { L with odbc := [] } v) := by
    intro B noTotal isString v fuel L colinfo hstmt i hty hv hB hf
    obtain ⟨n, g0, g1, g2, g3, g4, g5⟩ :=
      chunkSource_chunks B noTotal isString hstmt i hB v.length v (le_refl _)
    subst hv
    have := part1 _ (chunkSource B noTotal) fuel L colinfo hstmt i isString n hty
      (by show 0 < B; omega) (by omega) g1 g2 g3
    rw [this]
    have hBe : (chunkSource B noTotal).LUAL_BUFFERSIZE = B := rfl
    rw [hBe, g4, g5]
  refine ⟨part1 σ, ?_⟩
  intro B B1 noTotal isString v fuel L colinfo hstmt i hty hv hB hB1 hlen hf
  have hfit : v.length ≤ (if isString then B1 - 1 else B1) := by
    cases isString <;> simp <;> omega
  refine ⟨part2 B noTotal isString v fuel L colinfo hstmt i hty hv hB hf,
    (deliver_last B1 noTotal isString v hfit hB1).1, ?_⟩
  rw [part2 B noTotal isString v fuel L colinfo hstmt i hty hv hB hf,
    part2 B1 noTotal isString v fuel L colinfo hstmt i hty hv hB1 hf]

/-- Witness of C1: the string "ABCDE" delivered to a 4-byte staging buffer as the chunks
"ABC" (success with more data) and "DE" (success), and the 8-byte string "ABCDEFGH"
delivered by the modelled source through buffers of 4 and of 16 bytes. -/
theorem push_column_concatenates_chunks_witness :
    (push_column (scriptHost 4) 3
        (demoState [(bytes "x", bytes "string")] []
          (script [chunkOut SQL_SUCCESS_WITH_INFO 5 [65, 66, 67, 0],
                   chunkOut SQL_SUCCESS 2 [68, 69, 0]] [] []))
        2 7 1 =
      .ok 0 (lua_pushlstring
        { demoState [(bytes "x", bytes "string")] []
            (script [chunkOut SQL_SUCCESS_WITH_INFO 5 [65, 66, 67, 0],
                     chunkOut SQL_SUCCESS 2 [68, 69, 0]] [] []) with
          odbc := after_retrievals (scriptHost 4) 7 1 (chunked_stype true) 2
            (script [chunkOut SQL_SUCCESS_WITH_INFO 5 [65, 66, 67, 0],
                     chunkOut SQL_SUCCESS 2 [68, 69, 0]] [] []) }
        [65, 66, 67, 68, 69])) ∧
    (push_column (chunkSource 4 false) 9
        (valueState [(bytes "x", bytes "string")] [65, 66, 67, 68, 69, 70, 71, 72]) 2 7 1 =
      .ok 0 (lua_pushlstring
        { valueState [(bytes "x", bytes "string")] [65, 66, 67, 68, 69, 70, 71, 72] with
          odbc := [] }
        [65, 66, 67, 68, 69, 70, 71, 72])) :=
  ⟨(@push_column_concatenates_chunks Script).1 (scriptHost 4) 3
      (demoState [(bytes "x", bytes "string")] []
        (script [chunkOut SQL_SUCCESS_WITH_INFO 5 [65, 66, 67, 0],
                 chunkOut SQL_SUCCESS 2 [68, 69, 0]] [] []))
      2 7 1 true 1 (by decide) (by decide) (by decide) (by decide) (by decide) (by decide),
   ((@push_column_concatenates_chunks Script).2 4 16 false true
      [65, 66, 67, 68, 69, 70, 71, 72] 9
      (valueState [(bytes "x", bytes "string")] [65, 66, 67, 68, 69, 70, 71, 72]) 2 7 1
      (by decide) rfl (by decide) (by decide) (by decide) (by decide)).1⟩

/-! ## Closing a cursor twice -/

theorem pass_frame (L L1 : lua_State σ) (n : Int) (h : pass L = .ok n L1) :
    L1.udata = L.udata := by
  simp only [pass, lua_pushnumber, push, Res.ok.injEq] at h
  rw [← h.2]

theorem luaL_unref_udata (L : lua_State σ) (ref : Int) : (luaL_unref L ref).udata = L.udata := by
  unfold luaL_unref
  split <;> rfl

/-- Every run of `cur_close` that returns leaves the cursor closed. -/
theorem cur_close_closes (H : Host σ) (fuel : Nat) (L L1 : lua_State σ) (id : Nat) (n : Int)
    (hid : index2adr L 1 = some (.userdata id))
    (h : cur_close H fuel L = .ok n L1) :
    ∃ c, L1.udata id = .cur c ∧ c.closed = true := by
  unfold cur_close at h
  rw [hid] at h
  simp only at h
  split at h
  · rename_i cur hcur
    split at h
    · rename_i hclosed
      cases h
      exact ⟨cur, hcur, hclosed⟩
    · split at h
      · cases h
      · split at h
        · split at h
          · split at h
            · obtain ⟨_, d, h2⟩ := fail_frame _ _ _ _ _ _ _ h
              rw [h2]
              exact ⟨_, Function.update_same _ _ _, rfl⟩
            · split at h
              · obtain ⟨_, d, h2⟩ := fail_frame _ _ _ _ _ _ _ h
                rw [h2]
                exact ⟨_, Function.update_same _ _ _, rfl⟩
              · rw [pass_frame _ _ _ h]
                exact ⟨_, Function.update_same _ _ _, rfl⟩
          · cases h
        · cases h
  · cases h

/-- C5: `cur_close` is idempotent.  After any call of `cur_close` on a cursor that
returned (the release succeeded, or failed with a diagnostic, or the cursor was closed
before), the cursor is closed, and a second call on it, with any arguments and fuel,
returns no value and leaves the whole state as it found it: no error is raised, the
driver state is the same (no source call), and every userdata block, the cursor counter
of the connection included, is the same. -/
theorem cur_close_idempotent (H : Host σ) (fuel1 fuel2 : Nat) (L L1 : lua_State σ) (id : Nat)
    (n : Int) (args : List LuaValue)
    (hid : index2adr L 1 = some (.userdata id))
    (hfirst : cur_close H fuel1 L = .ok n L1) :
    cursor_closed L1 id = some true ∧
    cur_close H fuel2 (call L1 (.userdata id :: args)) =
      .ok 0 (call L1 (.userdata id :: args)) := by
  obtain ⟨c, hc, hclosed⟩ := cur_close_closes H fuel1 L L1 id n hid hfirst
  refine ⟨by simp [cursor_closed, hc, hclosed], ?_⟩
  have h1 : index2adr (call L1 (.userdata id :: args)) 1 = some (.userdata id) := by
    simp [index2adr, call, LUA_REGISTRYINDEX]
  unfold cur_close
  rw [h1]
  have h2 : (call L1 (.userdata id :: args)).udata id = .cur c := hc
  simp only [h2, hclosed, if_true]

/-- Witness of C5: closing the open cursor of the example state (the release succeeds
and returns 1), then closing it again. -/
theorem cur_close_idempotent_witness :
    cursor_closed ((cur_close (scriptHost 4) 3 (demoState colsX [] (script [] [] []))).state
      noState) 2 = some true ∧
    cur_close (scriptHost 4) 3
        (call ((cur_close (scriptHost 4) 3 (demoState colsX [] (script [] [] []))).state noState)
          [.userdata 2]) =
      .ok 0 (call ((cur_close (scriptHost 4) 3 (demoState colsX [] (script [] [] []))).state
          noState) [.userdata 2]) :=
  cur_close_idempotent (scriptHost 4) 3 3 (demoState colsX [] (script [] [] []))
    ((cur_close (scriptHost 4) 3 (demoState colsX [] (script [] [] []))).state noState) 2 1 []
    (by decide) rfl

/-! ## Fetching after the end of the result set -/

/-- C4, counterexample: on an open cursor with one Number column the first fetch yields
end-of-sequence (the source answers `SQL_NO_DATA`).  A second fetch on the same cursor
yields the row 42 when the source then answers `SQL_SUCCESS`, and yields nil with the
diagnostic text when the source then answers `SQL_ERROR`. -/
theorem cur_fetch_after_end_follows_source :
    (cur_fetch (scriptHost 4) 3
        (demoState colsX [] (script [numberOut 42] [SQL_NO_DATA, SQL_SUCCESS] []))).values
      = some [.nil] ∧
    (cur_fetch (scriptHost 4) 3 (call ((cur_fetch (scriptHost 4) 3
        (demoState colsX [] (script [numberOut 42] [SQL_NO_DATA, SQL_SUCCESS] []))).state
        noState) [.userdata 2])).values = some [.number 42] ∧
    (cur_fetch (scriptHost 4) 3
        (demoState colsX [] (script [failedOut SQL_ERROR 0] [SQL_NO_DATA, SQL_ERROR]
          [[69]]))).values = some [.nil] ∧
    (cur_fetch (scriptHost 4) 3 (call ((cur_fetch (scriptHost 4) 3
        (demoState colsX [] (script [failedOut SQL_ERROR 0] [SQL_NO_DATA, SQL_ERROR]
          [[69]]))).state noState) [.userdata 2])).values
      = some [.nil, .string [69, 10]] := by
  decide

/-- C4 as amended: a fetch on an open cursor to which the source answers `SQL_NO_DATA`
yields end-of-sequence: it returns the single value nil, raises no error, reads no
field, and changes nothing but the driver state, so the cursor is still open for the
next call.  Hence after an end-of-sequence every later fetch before a close yields
end-of-sequence again as long as the source answers `SQL_NO_DATA` to it. -/
theorem cur_fetch_no_data (H : Host σ) (fuel : Nat) (L : lua_State σ) (cur : cur_data)
    (hcur : getcursor L = .ok cur L)
    (hend : (H.SQLFetch L.odbc cur.hstmt).1 = SQL_NO_DATA) :
    cur_fetch H fuel L = .ok 1 (lua_pushnil { L with odbc := (H.SQLFetch L.odbc cur.hstmt).2 }) ∧
    results 1 (lua_pushnil { L with odbc := (H.SQLFetch L.odbc cur.hstmt).2 }) = [.nil] ∧
    getcursor (call (lua_pushnil { L with odbc := (H.SQLFetch L.odbc cur.hstmt).2 }) L.stack) =
      .ok cur (call (lua_pushnil { L with odbc := (H.SQLFetch L.odbc cur.hstmt).2 }) L.stack) := by
  refine ⟨?_, ?_, ?_⟩
  · unfold cur_fetch
    rw [hcur]
    simp only [Res.bind, hend, if_true]
  · simp [results, lua_pushnil, push]
  · unfold getcursor at hcur ⊢
    have : index2adr (call (lua_pushnil { L with odbc := (H.SQLFetch L.odbc cur.hstmt).2 })
        L.stack) 1 = index2adr L 1 := by
      simp [index2adr, call]
    rw [this]
    cases hi : index2adr L 1 with
    | none => rw [hi] at hcur; cases hcur
    | some v =>
      rw [hi] at hcur
      cases v with
      | userdata id =>
        simp only at hcur ⊢
        have hu : (call (lua_pushnil { L with odbc := (H.SQLFetch L.odbc cur.hstmt).2 })
            L.stack).udata id = L.udata id := rfl
        rw [hu]
        cases hc : L.udata id with
        | cur c =>
          rw [hc] at hcur
          simp only at hcur ⊢
          by_cases hcl : c.closed = true
          · rw [if_pos hcl] at hcur; cases hcur
          · rw [if_neg hcl] at hcur ⊢
            simp only [Res.ok.injEq] at hcur
            rw [hcur.1]
        | raw => rw [hc] at hcur; cases hcur
        | env e => rw [hc] at hcur; cases hcur
        | conn e => rw [hc] at hcur; cases hcur
      | nil => cases hcur
      | boolean b => cases hcur
      | number b => cases hcur
      | string b => cases hcur
      | table b => cases hcur

/-- Witness of C4 as amended: the source answers `SQL_NO_DATA` twice. -/
theorem cur_fetch_no_data_witness :
    (cur_fetch (scriptHost 4) 3 (demoState colsX [] (script [] [SQL_NO_DATA, SQL_NO_DATA] []))).values
      = some [.nil] ∧
    (cur_fetch (scriptHost 4) 3 (call ((cur_fetch (scriptHost 4) 3
        (demoState colsX [] (script [] [SQL_NO_DATA, SQL_NO_DATA] []))).state noState)
        [.userdata 2])).values = some [.nil] ∧
    cur_fetch (scriptHost 4) 3 (demoState colsX [] (script [] [SQL_NO_DATA, SQL_NO_DATA] [])) =
      .ok 1 (lua_pushnil { demoState colsX [] (script [] [SQL_NO_DATA, SQL_NO_DATA] []) with
        odbc := ((scriptHost 4).SQLFetch (script [] [SQL_NO_DATA, SQL_NO_DATA] []) 7).2 }) :=
  ⟨by decide, by decide,
   (cur_fetch_no_data (scriptHost 4) 3 (demoState colsX [] (script [] [SQL_NO_DATA, SQL_NO_DATA] []))
      { closed := false, conn := 1, numcols := 1, hstmt := 7, colinfo := 2 } rfl rfl).1⟩

/-! ## The column loops of `cur_fetch` and the row decoder -/

theorem toSQLUSMALLINT_id (x : Int) (h0 : 0 ≤ x) (h1 : x < 65536) : toSQLUSMALLINT x = x := by
  unfold toSQLUSMALLINT
  omega

/-- What a step of the row decoder that succeeds says about the read of its column. -/
theorem decodeRow_cons (H : Host σ) (fuel : Nat) (cur : cur_data)
    (store : Int → LuaValue → lua_State σ → lua_State σ) (i : Int) (rest : List Int)
    (L L' : lua_State σ) (vals : List LuaValue)
    (h : decodeRow H fuel cur store (i :: rest) L = some (vals, L')) :
    ∃ L1 v vals1, push_column H fuel L cur.colinfo cur.hstmt i = .ok 0 L1 ∧
      L1 = { L with stack := L.stack ++ [v], odbc := L1.odbc } ∧
      vals = v :: vals1 ∧
      decodeRow H fuel cur store rest (store i v { L1 with stack := L.stack }) =
        some (vals1, L') := by
  simp only [decodeRow] at h
  split at h
  · rename_i ret L1 hp
    split at h
    · rename_i v hv
      split at h
      · rename_i hc
        obtain ⟨hret, hst⟩ := hc
        subst hret
        cases hr : decodeRow H fuel cur store rest (store i v { L1 with stack := L.stack }) with
        | none => rw [hr] at h; simp at h
        | some r =>
          rw [hr] at h
          simp only [Option.map_some', Option.some.injEq, Prod.mk.injEq] at h
          obtain ⟨ext, hf, _⟩ := push_column_frame _ _ _ _ _ _ _ _ hp
          refine ⟨L1, v, r.1, hp, ?_, h.1.symm, ?_⟩
          · rw [hf]
            simp only [lua_State.mk.injEq, and_true, true_and]
            rw [hf] at hst
            exact hst
          · rw [hr, ← h.2]
      · cases h
    · cases h
  · cases h

/-- The row decoder that keeps the values on the stack leaves the row on top of the
stack it started from, and changes nothing else but the driver state. -/
theorem decodeRow_keepOnStack (H : Host σ) (fuel : Nat) (cur : cur_data) :
    ∀ (cols : List Int) (L L' : lua_State σ) (vals : List LuaValue),
      decodeRow H fuel cur keepOnStack cols L = some (vals, L') →
      L' = { L with stack := L.stack ++ vals, odbc := L'.odbc } ∧ vals.length = cols.length := by
  intro cols
  induction cols with
  | nil =>
    intro L L' vals h
    simp only [decodeRow, Option.some.injEq, Prod.mk.injEq] at h
    obtain ⟨h1, h2⟩ := h
    subst h1 h2
    simp
  | cons i rest ih =>
    intro L L' vals h
    obtain ⟨L1, v, vals1, _, hL1, hv, hrest⟩ := decodeRow_cons H fuel cur _ i rest L L' vals h
    have hk : keepOnStack i v { L1 with stack := L.stack } = L1 := by
      rw [hL1]; rfl
    rw [hk] at hrest
    obtain ⟨g1, g2⟩ := ih L1 L' vals1 hrest
    subst hv
    refine ⟨?_, by simp [g2]⟩
    rw [g1, hL1]
    simp

/-- The loop of `cur_fetch` without a table, run over columns that the row decoder
decodes: after `n` rounds the loop goes on at column `i + n` in the state the decoder
left. -/
theorem fetch_values_decode (H : Host σ) (fuel0 : Nat) (cur : cur_data) :
    ∀ (n : Nat) (i : Int) (fuel : Nat) (L L' : lua_State σ) (vals : List LuaValue),
      0 ≤ i → i + n ≤ 65535 → i + n ≤ cur.numcols + 1 → n ≤ fuel →
      decodeRow H fuel0 cur keepOnStack (colRange i n) L = some (vals, L') →
      fetch_values H fuel0 cur cur.hstmt fuel i L =
        fetch_values H fuel0 cur cur.hstmt (fuel - n) (i + n) L' := by
  intro n
  induction n with
  | zero =>
    intro i fuel L L' vals _ _ _ _ h
    simp only [colRange, decodeRow, Option.some.injEq, Prod.mk.injEq] at h
    rw [← h.2]
    simp
  | succ n ih =>
    intro i fuel L L' vals h0 h1 h2 hf h
    obtain ⟨L1, v, vals1, hp, hL1, hv, hrest⟩ :=
      decodeRow_cons H fuel0 cur _ i (colRange (i + 1) n) L L' vals h
    have hk : keepOnStack i v { L1 with stack := L.stack } = L1 := by
      rw [hL1]; rfl
    rw [hk] at hrest
    obtain ⟨f, rfl⟩ : ∃ f, fuel = f + 1 := ⟨fuel - 1, by omega⟩
    have hi : i ≤ cur.numcols := by push_cast at h2; omega
    simp only [fetch_values, hi, if_true, hp, Res.bind]
    rw [toSQLUSMALLINT_id (i + 1) (by omega) (by push_cast at h1; omega)]
    rw [ih (i + 1) f L1 L' vals1 (by omega) (by push_cast at h1 ⊢; omega)
      (by push_cast at h2 ⊢; omega) (by omega) hrest]
    have e1 : f + 1 - (n + 1) = f - n := by omega
    have e2 : i + 1 + (n : Int) = i + ((n + 1 : Nat) : Int) := by push_cast; omega
    rw [e1, e2]
    simp
/-- The members of `colRange i n` are `i + k` for `k < n`. -/
theorem mem_colRange (n : Nat) : ∀ (i j : Int), j ∈ colRange i n ↔ i ≤ j ∧ j < i + n := by
  induction n with
  | zero => intro i j; simp [colRange]
  | succ n ih =>
    intro i j
    simp only [colRange, List.mem_cons, ih]
    push_cast
    omega

/-- The row decoder that stores into the table `t` leaves the stack as it was, holds
the value of each position under its index, and changes no other entry of any table. -/
theorem decodeRow_storeAt (H : Host σ) (fuel : Nat) (cur : cur_data) (t : Nat) :
    ∀ (n : Nat) (i : Int) (L L' : lua_State σ) (vals : List LuaValue),
      decodeRow H fuel cur (storeAt t) (colRange i n) L = some (vals, L') →
      L' = { L with tables := L'.tables, odbc := L'.odbc } ∧ vals.length = n ∧
      (∀ k : Nat, k < n → L'.tables t (.number (i + k)) = vals.getD k .nil) ∧
      (∀ (t1 : Nat) (key : LuaValue),
        (t1 ≠ t ∨ ∀ j : Int, j ∈ colRange i n → key ≠ .number j) →
        L'.tables t1 key = L.tables t1 key) := by
  intro n
  induction n with
  | zero =>
    intro i L L' vals h
    simp only [colRange, decodeRow, Option.some.injEq, Prod.mk.injEq] at h
    obtain ⟨h1, h2⟩ := h
    subst h1 h2
    simp
  | succ n ih =>
    intro i L L' vals h
    obtain ⟨L1, v, vals1, _, hL1, hv, hrest⟩ :=
      decodeRow_cons H fuel cur _ i (colRange (i + 1) n) L L' vals h
    obtain ⟨g1, g2, g3, g4⟩ := ih (i + 1) _ L' vals1 hrest
    have hst : ∀ (t1 : Nat) (key : LuaValue),
        (storeAt t i v { L1 with stack := L.stack }).tables t1 key =
          if t1 = t ∧ key = .number i then v else L.tables t1 key := by
      intro t1 key
      rw [hL1]
      simp only [storeAt]
      by_cases ht : t1 = t
      · subst ht
        by_cases hk : key = .number i
        · subst hk; simp
        · simp [hk]
      · simp [ht, Function.update_noteq ht]
    subst hv
    refine ⟨?_, by simp [g2], ?_, ?_⟩
    · rw [g1, hL1]
      simp [storeAt]
    · intro k hk
      cases k with
      | zero =>
        have := g4 t (.number i) (Or.inr (by
          intro j hj
          rw [mem_colRange] at hj
          intro he
          injection he with he
          have he1 : (i : Int) = j := he
          omega))
        simp only [Nat.cast_zero, add_zero, List.getD_cons_zero]
        rw [this, hst]
        simp
      | succ k =>
        have := g3 k (by omega)
        have e : i + ((k + 1 : Nat) : Int) = i + 1 + (k : Int) := by push_cast; omega
        simp only [List.getD_cons_succ]
        rw [← this, e]
    · intro t1 key hcond
      rw [g4 t1 key, hst]
      · have : ¬ (t1 = t ∧ key = .number i) := by
          rintro ⟨h1, h2⟩
          rcases hcond with hc | hc
          · exact hc h1
          · exact hc i (by rw [mem_colRange]; push_cast; omega) h2
        simp [this]
      · rcases hcond with hc | hc
        · exact Or.inl hc
        · refine Or.inr (fun j hj => hc j ?_)
          rw [mem_colRange] at hj ⊢
          push_cast
          omega
theorem index2adr_congr (L M : lua_State σ) (idx : Int) (h : L.stack = M.stack) :
    index2adr L idx = index2adr M idx := by
  simp only [index2adr, h]

/-- Storing the value on the top under index `i` of the table at absolute index 2 is
the `storeAt` of the row decoder. -/
theorem lua_rawseti_storeAt (L L1 : lua_State σ) (t : Nat) (i : Int) (v : LuaValue)
    (ht : index2adr L 2 = some (.table t))
    (hL1 : L1 = { L with stack := L.stack ++ [v], odbc := L1.odbc }) :
    lua_rawseti L1 2 i = some (storeAt t i v { L1 with stack := L.stack }) := by
  have h2 : index2adr L1 2 = some (.table t) := by
    rw [hL1]
    exact index2adr_pos_append _ L.stack [v] 2 _ (by decide)
      (by rw [← ht])
  have h3 : L1.stack.getLast? = some v := by
    rw [hL1]; simp
  have h4 : L1.stack.dropLast = L.stack := by
    rw [hL1]; try simp
  simp only [lua_rawseti, h2, h3, h4]
  rfl

/-- The loop of `cur_fetch` that copies values to numerical indices, run over columns
that the row decoder decodes. -/
theorem fetch_numerical_decode (H : Host σ) (fuel0 : Nat) (cur : cur_data) (t : Nat) :
    ∀ (n : Nat) (i : Int) (fuel : Nat) (L L' : lua_State σ) (vals : List LuaValue),
      0 ≤ i → i + n ≤ 65535 → i + n ≤ cur.numcols + 1 → n ≤ fuel →
      index2adr L 2 = some (.table t) →
      decodeRow H fuel0 cur (storeAt t) (colRange i n) L = some (vals, L') →
      fetch_numerical H fuel0 cur cur.hstmt fuel i L =
        fetch_numerical H fuel0 cur cur.hstmt (fuel - n) (i + n) L' := by
  intro n
  induction n with
  | zero =>
    intro i fuel L L' vals _ _ _ _ _ h
    simp only [colRange, decodeRow, Option.some.injEq, Prod.mk.injEq] at h
    rw [← h.2]
    simp
  | succ n ih =>
    intro i fuel L L' vals h0 h1 h2 hf ht h
    obtain ⟨L1, v, vals1, hp, hL1, hv, hrest⟩ :=
      decodeRow_cons H fuel0 cur _ i (colRange (i + 1) n) L L' vals h
    obtain ⟨f, rfl⟩ : ∃ f, fuel = f + 1 := ⟨fuel - 1, by omega⟩
    have hi : i ≤ cur.numcols := by push_cast at h2; omega
    have hset := lua_rawseti_storeAt L L1 t i v ht hL1
    simp only [fetch_numerical, hi, if_true, hp, Res.bind, hset]
    rw [toSQLUSMALLINT_id (i + 1) (by omega) (by push_cast at h1; omega)]
    have ht1 : index2adr (storeAt t i v { L1 with stack := L.stack }) 2 = some (.table t) := by
      rw [← ht]; exact index2adr_congr _ _ _ rfl
    rw [ih (i + 1) f _ L' vals1 (by omega) (by push_cast at h1 ⊢; omega)
      (by push_cast at h2 ⊢; omega) (by omega) ht1 hrest]
    have e1 : f + 1 - (n + 1) = f - n := by omega
    have e2 : i + 1 + (n : Int) = i + ((n + 1 : Nat) : Int) := by push_cast; omega
    rw [e1, e2]
    simp
theorem getcursor_odbc (L : lua_State σ) (cur : cur_data) (s : σ)
    (h : getcursor L = .ok cur L) :
    getcursor { L with odbc := s } = .ok cur { L with odbc := s } := by
  unfold getcursor at h ⊢
  have e : index2adr { L with odbc := s } 1 = index2adr L 1 := index2adr_congr _ _ _ rfl
  rw [e]
  cases hi : index2adr L 1 with
  | none => rw [hi] at h; cases h
  | some v =>
    rw [hi] at h
    cases v with
    | userdata id =>
      simp only at h ⊢
      cases hc : L.udata id with
      | cur c =>
        rw [hc] at h
        simp only at h ⊢
        by_cases hcl : c.closed = true
        · rw [if_pos hcl] at h; cases h
        · rw [if_neg hcl] at h ⊢
          simp only [Res.ok.injEq] at h
          rw [h.1]
      | raw => rw [hc] at h; cases h
      | env e => rw [hc] at h; cases h
      | conn e => rw [hc] at h; cases h
    | nil => cases h
    | boolean b => cases h
    | number b => cases h
    | string b => cases h
    | table b => cases h

theorem luaL_optstring_odbc (H : Host σ) (L : lua_State σ) (narg : Int) (d opts : List Byte)
    (s : σ) (h : luaL_optstring H L narg d = .ok opts L) :
    luaL_optstring H { L with odbc := s } narg d = .ok opts { L with odbc := s } := by
  unfold luaL_optstring at h ⊢
  have e : index2adr { L with odbc := s } narg = index2adr L narg := index2adr_congr _ _ _ rfl
  rw [e]
  split at h <;> simp_all

theorem error_false (rc : SQLRETURN) (h : error rc = false) :
    rc = SQL_SUCCESS ∨ rc = SQL_SUCCESS_WITH_INFO := by
  unfold error at h
  by_cases h1 : rc = SQL_SUCCESS
  · exact Or.inl h1
  · by_cases h2 : rc = SQL_SUCCESS_WITH_INFO
    · exact Or.inr h2
    · simp [h1, h2] at h

/-- The head of `cur_fetch` once a row has been fetched: the cursor is valid and
`SQLFetch` reports success, so the function goes on to the column loops in the state
with the next driver state. -/
theorem cur_fetch_row (H : Host σ) (fuel : Nat) (L : lua_State σ) (cur : cur_data)
    (hcur : getcursor L = .ok cur L)
    (hrow : error (H.SQLFetch L.odbc cur.hstmt).1 = false) :
    cur_fetch H fuel L =
      (if lua_istable { L with odbc := (H.SQLFetch L.odbc cur.hstmt).2 } 2 then
        (luaL_optstring H { L with odbc := (H.SQLFetch L.odbc cur.hstmt).2 } 3
            (bytes "n")).bind (fun opts L3 =>
          (if strchr opts 110 then fetch_numerical H fuel cur cur.hstmt fuel 1 L3
           else .ok 0 L3).bind (fun ret L4 =>
            if ret ≠ 0 then .ok ret L4
            else
              (if strchr opts 97 then fetch_alphanumerical H fuel cur cur.hstmt fuel 1 L4
               else .ok 0 L4).bind (fun ret L5 =>
                if ret ≠ 0 then .ok ret L5
                else
                  match lua_pushvalue L5 2 with
                  | none => .undefined
                  | some L6 => .ok 1 L6)))
      else
        (fetch_values H fuel cur cur.hstmt fuel 1
            { L with odbc := (H.SQLFetch L.odbc cur.hstmt).2 }).bind (fun ret L3 =>
          if ret ≠ 0 then .ok ret L3 else .ok cur.numcols L3)) := by
  have hnd : (H.SQLFetch L.odbc cur.hstmt).1 ≠ SQL_NO_DATA := by
    rcases error_false _ hrow with h | h <;> rw [h] <;> decide
  unfold cur_fetch
  rw [hcur]
  simp only [Res.bind, hnd, if_false, hrow, Bool.false_eq_true]

theorem fetch_values_done (H : Host σ) (fuel0 : Nat) (cur : cur_data) (hstmt : Nat) (fuel : Nat)
    (i : Int) (L : lua_State σ) (hf : 0 < fuel) (hi : cur.numcols < i) :
    fetch_values H fuel0 cur hstmt fuel i L = .ok 0 L := by
  obtain ⟨f, rfl⟩ : ∃ f, fuel = f + 1 := ⟨fuel - 1, by omega⟩
  have : ¬ i ≤ cur.numcols := by omega
  simp [fetch_values, this]

theorem fetch_numerical_done (H : Host σ) (fuel0 : Nat) (cur : cur_data) (hstmt : Nat)
    (fuel : Nat) (i : Int) (L : lua_State σ) (hf : 0 < fuel) (hi : cur.numcols < i) :
    fetch_numerical H fuel0 cur hstmt fuel i L = .ok 0 L := by
  obtain ⟨f, rfl⟩ : ∃ f, fuel = f + 1 := ⟨fuel - 1, by omega⟩
  have : ¬ i ≤ cur.numcols := by omega
  simp [fetch_numerical, this]
/-- C2: on a cursor with `N` columns, for a row that `SQLFetch` delivers and on which
the reads of the source columns `1, 2, ..., N`, made in this order, all deliver a value
(`decodeRow` over `columns N` gives the row `vals`): (1) without a caller table,
`cur_fetch` returns exactly `N` values, and they are `vals`, the value of position `i`
being the one decoded from source column `i`; (2) with a caller table `t` in positional
mode (the option string has 'n' and no 'a'), `cur_fetch` returns the table `t` and the
value decoded from source column `i` is stored under index `i` of `t`. -/
theorem cur_fetch_row_order (H : Host σ) (fuel : Nat) (L L' : lua_State σ) (cur : cur_data)
    (N : Nat) (vals : List LuaValue)
    (hcur : getcursor L = .ok cur L) (hN : cur.numcols = N) (hmax : N ≤ 32767)
    (hfuel : N < fuel)
    (hrow : error (H.SQLFetch L.odbc cur.hstmt).1 = false) :
    (lua_istable L 2 = false →
      decodeRow H fuel cur keepOnStack (columns N)
        { L with odbc := (H.SQLFetch L.odbc cur.hstmt).2 } = some (vals, L') →
      cur_fetch H fuel L = .ok N L' ∧ results N L' = vals ∧ vals.length = N) ∧
    (∀ (t : Nat) (opts : List Byte), index2adr L 2 = some (.table t) →
      luaL_optstring H L 3 (bytes "n") = .ok opts L →
      strchr opts 110 = true → strchr opts 97 = false →
      decodeRow H fuel cur (storeAt t) (columns N)
        { L with odbc := (H.SQLFetch L.odbc cur.hstmt).2 } = some (vals, L') →
      cur_fetch H fuel L = .ok 1 (push L' (.table t)) ∧
      results 1 (push L' (.table t)) = [.table t] ∧ vals.length = N ∧
      ∀ k : Nat, k < N → L'.tables t (.number ((k : Int) + 1)) = vals.getD k .nil) := by
  constructor
  · intro htab hdec
    have htab1 : lua_istable { L with odbc := (H.SQLFetch L.odbc cur.hstmt).2 } 2 = false := by
      rw [← htab]; simp only [lua_istable, index2adr]
    obtain ⟨g1, g2⟩ := decodeRow_keepOnStack H fuel cur _ _ _ _ hdec
    have hlen : (columns N).length = N := by
      have : ∀ (n : Nat) (i : Int), (colRange i n).length = n := by
        intro n; induction n with
        | zero => intro i; rfl
        | succ n ih => intro i; simp [colRange, ih]
      exact this N 1
    rw [hlen] at g2
    have hloop := fetch_values_decode H fuel cur N 1 fuel _ L' vals (by omega)
      (by omega) (by rw [hN]; omega) (by omega) hdec
    rw [cur_fetch_row H fuel L cur hcur hrow]
    simp only [htab1, Bool.false_eq_true, if_false, hloop]
    rw [fetch_values_done H fuel cur cur.hstmt (fuel - N) (1 + N) L' (by omega)
      (by rw [hN]; omega)]
    simp only [Res.bind, ne_eq, not_true_eq_false, if_false, hN]
    refine ⟨trivial, ?_, g2⟩
    rw [g1]
    simp [results, g2]
  · intro t opts ht hopts hn ha hdec
    have htab1 : lua_istable { L with odbc := (H.SQLFetch L.odbc cur.hstmt).2 } 2 = true := by
      have : index2adr { L with odbc := (H.SQLFetch L.odbc cur.hstmt).2 } 2 =
          some (.table t) := by rw [← ht]; exact index2adr_congr _ _ _ rfl
      simp only [lua_istable, this]
    have ht1 : index2adr { L with odbc := (H.SQLFetch L.odbc cur.hstmt).2 } 2 =
        some (.table t) := by rw [← ht]; exact index2adr_congr _ _ _ rfl
    obtain ⟨g1, g2, g3, _⟩ := decodeRow_storeAt H fuel cur t N 1 _ L' vals hdec
    have hloop := fetch_numerical_decode H fuel cur t N 1 fuel _ L' vals (by omega)
      (by omega) (by rw [hN]; omega) (by omega) ht1 hdec
    have hpv : lua_pushvalue L' 2 = some (push L' (.table t)) := by
      have : index2adr L' 2 = some (.table t) := by
        rw [← ht, g1]; exact index2adr_congr _ _ _ rfl
      simp only [lua_pushvalue, this, Option.map_some']
    rw [cur_fetch_row H fuel L cur hcur hrow]
    simp only [htab1, if_true, luaL_optstring_odbc H L 3 _ opts _ hopts, Res.bind, hn, ha,
      hloop, Bool.false_eq_true, if_false]
    rw [fetch_numerical_done H fuel cur cur.hstmt (fuel - N) (1 + N) L' (by omega)
      (by rw [hN]; omega)]
    simp only [ne_eq, not_true_eq_false, if_false, hpv]
    refine ⟨trivial, by simp [results, push], g2, ?_⟩
    intro k hk
    have e : (k : Int) + 1 = 1 + (k : Int) := by omega
    rw [e]
    exact g3 k hk
/-- Witness of C2: the row (42, "AB") of a cursor with the columns "x" and "y", fetched
without a table and fetched into table 2 in the default mode. -/
theorem cur_fetch_row_order_witness :
    (cur_fetch (scriptHost 4) 3 (demoState colsXY [] rowXY) =
        .ok 2 (decoded (decodeRow (scriptHost 4) 3 (demoCursor 2) keepOnStack (columns 2)
          { demoState colsXY [] rowXY with
            odbc := ((scriptHost 4).SQLFetch rowXY 7).2 }) noState) ∧
      results 2 (decoded (decodeRow (scriptHost 4) 3 (demoCursor 2) keepOnStack (columns 2)
          { demoState colsXY [] rowXY with
            odbc := ((scriptHost 4).SQLFetch rowXY 7).2 }) noState) =
        [.number 42, .string [65, 66]]) ∧
    (cur_fetch (scriptHost 4) 3 (demoState colsXY [.table 2] rowXY) =
        .ok 1 (push (decoded (decodeRow (scriptHost 4) 3 (demoCursor 2) (storeAt 2) (columns 2)
          { demoState colsXY [.table 2] rowXY with
            odbc := ((scriptHost 4).SQLFetch rowXY 7).2 }) noState) (.table 2)) ∧
      (decoded (decodeRow (scriptHost 4) 3 (demoCursor 2) (storeAt 2) (columns 2)
          { demoState colsXY [.table 2] rowXY with
            odbc := ((scriptHost 4).SQLFetch rowXY 7).2 }) noState).tables 2 (.number 2) =
        .string [65, 66]) :=
  ⟨⟨((cur_fetch_row_order (scriptHost 4) 3 (demoState colsXY [] rowXY) _ (demoCursor 2) 2
        [.number 42, .string [65, 66]] rfl rfl (by decide) (by decide) (by decide)).1
        (by decide) rfl).1,
    ((cur_fetch_row_order (scriptHost 4) 3 (demoState colsXY [] rowXY) _ (demoCursor 2) 2
        [.number 42, .string [65, 66]] rfl rfl (by decide) (by decide) (by decide)).1
        (by decide) rfl).2.1⟩,
   ⟨((cur_fetch_row_order (scriptHost 4) 3 (demoState colsXY [.table 2] rowXY) _ (demoCursor 2) 2
        [.number 42, .string [65, 66]] rfl rfl (by decide) (by decide) (by decide)).2
        2 (bytes "n") (by decide) rfl (by decide) (by decide) rfl).1,
    ((cur_fetch_row_order (scriptHost 4) 3 (demoState colsXY [.table 2] rowXY) _ (demoCursor 2) 2
        [.number 42, .string [65, 66]] rfl rfl (by decide) (by decide) (by decide)).2
        2 (bytes "n") (by decide) rfl (by decide) (by decide) rfl).2.2.2 1 (by decide)⟩⟩

/-! ## Evaluations at failing inputs -/

/-- C9, the code at the failing input: on a String column whose first retrieval returns
`SQL_ERROR` and leaves `SQL_NULL_DATA` in the indicator, `push_column` returns 0 with
nil on the stack and asks for no diagnostic; when a later retrieval returns
`SQL_INVALID_HANDLE`, it returns 0 with the partial string "ABC".  On a Number column the
same first answer makes it return 2 with nil and the diagnostic text. -/
theorem push_column_error_not_surfaced :
    (push_column (scriptHost 4) 3
        (demoState colsS [] (script [failedOut SQL_ERROR SQL_NULL_DATA] [] [[69]])) 2 7 1).ret?
      = some 0 ∧
    ((push_column (scriptHost 4) 3
        (demoState colsS [] (script [failedOut SQL_ERROR SQL_NULL_DATA] [] [[69]])) 2 7 1).state
      noState).stack = [.userdata 2, .nil] ∧
    (push_column (scriptHost 4) 3
        (demoState colsS [] (script [chunkOut SQL_SUCCESS_WITH_INFO 5 [65, 66, 67, 0],
          failedOut SQL_INVALID_HANDLE 0] [] [[69]])) 2 7 1).ret? = some 0 ∧
    ((push_column (scriptHost 4) 3
        (demoState colsS [] (script [chunkOut SQL_SUCCESS_WITH_INFO 5 [65, 66, 67, 0],
          failedOut SQL_INVALID_HANDLE 0] [] [[69]])) 2 7 1).state noState).stack
      = [.userdata 2, .string [65, 66, 67]] ∧
    (push_column (scriptHost 4) 3
        (demoState colsX [] (script [failedOut SQL_ERROR SQL_NULL_DATA] [] [[69]])) 2 7 1).values
      = some [.nil, .string [69, 10]] := by
  decide

/-- C6, the code at the failing input: an open cursor with one Number column, `SQLFetch`
returns `SQL_ERROR`.  `cur_fetch` still reads column 1 (the driver logs the
`SQLGetData` call) and returns the value read, 42, not nil and the diagnostic. -/
theorem cur_fetch_error_not_returned :
    (cur_fetch (scriptHost 4) 3
        (demoState colsX [] (script [numberOut 42] [SQL_ERROR] [[69]]))).values
      = some [.number 42] ∧
    ((cur_fetch (scriptHost 4) 3
        (demoState colsX [] (script [numberOut 42] [SQL_ERROR] [[69]]))).state noState).odbc.reads
      = [(1, SQL_C_DOUBLE)] := by
  decide

/-- C8, the code at the failing input: a fetch into the caller's table (table 2) with
mode "a" on a row whose column "x" holds 42.  The value is stored under the index 1 and
nothing is stored under the name "x". -/
theorem cur_fetch_mode_a_stores_by_index :
    (cur_fetch (scriptHost 4) 3
        (demoState colsX [.table 2, .string (bytes "a")]
          (script [numberOut 42] [SQL_SUCCESS] []))).values = some [.table 2] ∧
    ((cur_fetch (scriptHost 4) 3
        (demoState colsX [.table 2, .string (bytes "a")]
          (script [numberOut 42] [SQL_SUCCESS] []))).state noState).tables 2 (.number 1)
      = .number 42 ∧
    ((cur_fetch (scriptHost 4) 3
        (demoState colsX [.table 2, .string (bytes "a")]
          (script [numberOut 42] [SQL_SUCCESS] []))).state noState).tables 2 (.string (bytes "x"))
      = .nil := by
  decide

/-- C10, the code at the failing input: a connection that has executed nothing yet
executes a SELECT.  The cursor returned (userdata 4) is open and the connection's
counter is still 0; closing the connection now succeeds (it returns 1 and the connection
is closed) although the cursor is open.  Closing the cursor (from the state after the
execute) takes the counter to 4294967295, after which closing the connection raises an
error although no cursor is open. -/
theorem conn_close_ignores_open_cursor :
    (conn_execute (scriptHost 4) 3 (connState [.string (bytes "SELECT x")] selectX)).values
      = some [.userdata 4] ∧
    cursor_closed ((conn_execute (scriptHost 4) 3
        (connState [.string (bytes "SELECT x")] selectX)).state noState) 4 = some false ∧
    open_cursors ((conn_execute (scriptHost 4) 3
        (connState [.string (bytes "SELECT x")] selectX)).state noState) 1 = 1 ∧
    cur_counter ((conn_execute (scriptHost 4) 3
        (connState [.string (bytes "SELECT x")] selectX)).state noState) 1 = some 0 ∧
    (conn_close (scriptHost 4) 3 (call ((conn_execute (scriptHost 4) 3
        (connState [.string (bytes "SELECT x")] selectX)).state noState) [.userdata 1])).values
      = some [.number 1] ∧
    connection_closed ((conn_close (scriptHost 4) 3 (call ((conn_execute (scriptHost 4) 3
        (connState [.string (bytes "SELECT x")] selectX)).state noState) [.userdata 1])).state
        noState) 1 = some true ∧
    cur_counter ((cur_close (scriptHost 4) 3 (call ((conn_execute (scriptHost 4) 3
        (connState [.string (bytes "SELECT x")] selectX)).state noState) [.userdata 4])).state
        noState) 1 = some 4294967295 ∧
    open_cursors ((cur_close (scriptHost 4) 3 (call ((conn_execute (scriptHost 4) 3
        (connState [.string (bytes "SELECT x")] selectX)).state noState) [.userdata 4])).state
        noState) 1 = 0 ∧
    (conn_close (scriptHost 4) 3 (call ((cur_close (scriptHost 4) 3 (call ((conn_execute
        (scriptHost 4) 3 (connState [.string (bytes "SELECT x")] selectX)).state noState)
        [.userdata 4])).state noState) [.userdata 1])).raised?
      = some (bytes "LuaSQL: unexpected error (ConnClose)") := by
  decide

/-! ## A read that fails in the middle of a row -/

/-- A read of `push_column` that returns non-zero returns 2, leaves nil and a message
on the top of the stack, and changes no table. -/
theorem push_column_failure (H : Host σ) (fuel : Nat) (L M : lua_State σ) (colinfo : Int)
    (hstmt : Nat) (i : Int) (ret : Int)
    (h : push_column H fuel L colinfo hstmt i = .ok ret M) (hret : ret ≠ 0) :
    ret = 2 ∧ (∃ d, results 2 M = [.nil, .string d]) ∧ M.tables = L.tables := by
  obtain ⟨ext, hf, hc⟩ := push_column_frame _ _ _ _ _ _ _ _ h
  rcases hc with ⟨h0, _⟩ | ⟨h2, pre, d, hext⟩
  · exact absurd h0 hret
  · refine ⟨h2, ⟨d, ?_⟩, by rw [hf]⟩
    rw [hf, hext]
    simp only [results, List.length_append, List.length_cons, List.length_nil]
    have e : L.stack.length + (pre.length + (0 + 1 + 1)) - (2 : Int).toNat =
        (L.stack ++ pre).length := by
      simp only [List.length_append]
      have : (2 : Int).toNat = 2 := rfl
      omega
    rw [e, ← List.append_assoc, List.drop_left]

theorem lua_rawgeti_push (L L1 : lua_State σ) (idx n : Int) (h : lua_rawgeti L idx n = some L1) :
    ∃ v, L1 = { L with stack := L.stack ++ [v] } := by
  unfold lua_rawgeti at h
  split at h
  · cases h; exact ⟨_, rfl⟩
  · cases h

/-- The two pushes at the head of a round of the by-name loop of `cur_fetch`. -/
theorem lua_rawgeti_twice (L L2 : lua_State σ) (colinfo i : Int)
    (h : (lua_rawgeti L LUA_REGISTRYINDEX colinfo).bind (fun L1 => lua_rawgeti L1 (-1) i) =
      some L2) :
    ∃ a b, L2 = { L with stack := L.stack ++ [a, b] } := by
  cases h1 : lua_rawgeti L LUA_REGISTRYINDEX colinfo with
  | none => rw [h1] at h; cases h
  | some L1 =>
    rw [h1] at h
    simp only [Option.bind] at h
    obtain ⟨a, ha⟩ := lua_rawgeti_push _ _ _ _ h1
    obtain ⟨b, hb⟩ := lua_rawgeti_push _ _ _ _ h
    refine ⟨a, b, ?_⟩
    rw [hb, ha]
    simp

/-- What a round of the by-name rounds that delivers a value says about its reads. -/
theorem decodeRowAlpha_cons (H : Host σ) (fuel : Nat) (cur : cur_data) (t : Nat) (i : Int)
    (rest : List Int) (L L' : lua_State σ) (vals : List LuaValue)
    (h : decodeRowAlpha H fuel cur t (i :: rest) L = some (vals, L')) :
    ∃ (L0 L1 : lua_State σ) (a b v : LuaValue) (vals1 : List LuaValue),
      push_name cur i L = some L0 ∧ L0 = { L with stack := L.stack ++ [a, b] } ∧
      push_column H fuel L0 cur.colinfo cur.hstmt i = .ok 0 L1 ∧
      L1 = { L0 with stack := L0.stack ++ [v], odbc := L1.odbc } ∧
      vals = v :: vals1 ∧
      decodeRowAlpha H fuel cur t rest (storeAt t i v { L1 with stack := L0.stack }) =
        some (vals1, L') := by
  simp only [decodeRowAlpha] at h
  split at h
  · cases h
  · rename_i L0 hpre
    obtain ⟨a, b, hab⟩ := lua_rawgeti_twice _ _ _ _ hpre
    split at h
    · cases h
    · rename_i r0 hdec
      obtain ⟨L1, v, vals1, hp, hL1, hv, hrest⟩ :=
        decodeRow_cons H fuel cur _ i [] L0 r0.2 r0.1 hdec
      simp only [decodeRow, Option.some.injEq, Prod.mk.injEq] at hrest
      obtain ⟨hr1, hr2⟩ := hrest
      subst hr1
      cases hr : decodeRowAlpha H fuel cur t rest r0.2 with
      | none => rw [hr] at h; simp at h
      | some r =>
        rw [hr] at h
        simp only [Option.map_some', Option.some.injEq, Prod.mk.injEq] at h
        refine ⟨L0, L1, a, b, v, r.1, hpre, hab, hp, hL1, ?_, ?_⟩
        · rw [← h.1, hv]; rfl
        · rw [hr2, hr, ← h.2]

/-- The by-name rounds into the table `t` leave the stack they started from under the
values they pushed, hold the value of each position under its index, and change no
other entry of any table. -/
theorem decodeRowAlpha_frame (H : Host σ) (fuel : Nat) (cur : cur_data) (t : Nat) :
    ∀ (n : Nat) (i : Int) (L L' : lua_State σ) (vals : List LuaValue),
      decodeRowAlpha H fuel cur t (colRange i n) L = some (vals, L') →
      (∃ S, L'.stack = L.stack ++ S) ∧ vals.length = n ∧
      (∀ k : Nat, k < n → L'.tables t (.number (i + k)) = vals.getD k .nil) ∧
      (∀ (t1 : Nat) (key : LuaValue),
        (t1 ≠ t ∨ ∀ j : Int, j ∈ colRange i n → key ≠ .number j) →
        L'.tables t1 key = L.tables t1 key) := by
  intro n
  induction n with
  | zero =>
    intro i L L' vals h
    simp only [colRange, decodeRowAlpha, Option.some.injEq, Prod.mk.injEq] at h
    obtain ⟨h1, h2⟩ := h
    subst h1 h2
    exact ⟨⟨[], by simp⟩, rfl, fun k hk => by omega, fun _ _ _ => rfl⟩
  | succ n ih =>
    intro i L L' vals h
    obtain ⟨L0, L1, a, b, v, vals1, _, hL0, _, hL1, hv, hrest⟩ :=
      decodeRowAlpha_cons H fuel cur t i (colRange (i + 1) n) L L' vals h
    obtain ⟨⟨S, g1⟩, g2, g3, g4⟩ := ih (i + 1) _ L' vals1 hrest
    have hst : ∀ (t1 : Nat) (key : LuaValue),
        (storeAt t i v { L1 with stack := L0.stack }).tables t1 key =
          if t1 = t ∧ key = .number i then v else L.tables t1 key := by
      intro t1 key
      rw [hL1, hL0]
      simp only [storeAt]
      by_cases ht : t1 = t
      · subst ht
        by_cases hk : key = .number i
        · subst hk; simp
        · simp [hk]
      · simp [ht, Function.update_noteq ht]
    subst hv
    refine ⟨⟨[a, b] ++ S, ?_⟩, by simp [g2], ?_, ?_⟩
    · rw [g1]
      simp only [storeAt]
      rw [hL0]
      simp
    · intro k hk
      cases k with
      | zero =>
        have := g4 t (.number i) (Or.inr (by
          intro j hj
          rw [mem_colRange] at hj
          intro he
          injection he with he
          have he1 : (i : Int) = j := he
          omega))
        simp only [Nat.cast_zero, add_zero, List.getD_cons_zero]
        rw [this, hst]
        simp
      | succ k =>
        have := g3 k (by omega)
        have e : i + ((k + 1 : Nat) : Int) = i + 1 + (k : Int) := by push_cast; omega
        simp only [List.getD_cons_succ]
        rw [← this, e]
    · intro t1 key hcond
      rw [g4 t1 key, hst]
      · have : ¬ (t1 = t ∧ key = .number i) := by
          rintro ⟨h1, h2⟩
          rcases hcond with hc | hc
          · exact hc h1
          · exact hc i (by rw [mem_colRange]; push_cast; omega) h2
        simp [this]
      · rcases hcond with hc | hc
        · exact Or.inl hc
        · refine Or.inr (fun j hj => hc j ?_)
          rw [mem_colRange] at hj ⊢
          push_cast
          omega

/-- The loop of `cur_fetch` that copies values to alphanumerical indices, run over
columns whose rounds deliver a value. -/
theorem fetch_alphanumerical_decode (H : Host σ) (fuel0 : Nat) (cur : cur_data) (t : Nat) :
    ∀ (n : Nat) (i : Int) (fuel : Nat) (L L' : lua_State σ) (vals : List LuaValue),
      0 ≤ i → i + n ≤ 65535 → i + n ≤ cur.numcols + 1 → n ≤ fuel →
      index2adr L 2 = some (.table t) →
      decodeRowAlpha H fuel0 cur t (colRange i n) L = some (vals, L') →
      fetch_alphanumerical H fuel0 cur cur.hstmt fuel i L =
        fetch_alphanumerical H fuel0 cur cur.hstmt (fuel - n) (i + n) L' := by
  intro n
  induction n with
  | zero =>
    intro i fuel L L' vals _ _ _ _ _ h
    simp only [colRange, decodeRowAlpha, Option.some.injEq, Prod.mk.injEq] at h
    rw [← h.2]
    simp
  | succ n ih =>
    intro i fuel L L' vals h0 h1 h2 hf ht h
    obtain ⟨L0, L1, a, b, v, vals1, hpre, hL0, hp, hL1, hv, hrest⟩ :=
      decodeRowAlpha_cons H fuel0 cur t i (colRange (i + 1) n) L L' vals h
    obtain ⟨f, rfl⟩ : ∃ f, fuel = f + 1 := ⟨fuel - 1, by omega⟩
    have hi : i ≤ cur.numcols := by push_cast at h2; omega
    have ht0 : index2adr L0 2 = some (.table t) := by
      rw [hL0]
      exact index2adr_pos_append _ L.stack [a, b] 2 _ (by decide) (by rw [← ht])
    have hset := lua_rawseti_storeAt L0 L1 t i v ht0 hL1
    unfold push_name at hpre
    simp only [fetch_alphanumerical, hi, if_true, hpre, hp, Res.bind, hset]
    rw [toSQLUSMALLINT_id (i + 1) (by omega) (by push_cast at h1; omega)]
    have ht1 : index2adr (storeAt t i v { L1 with stack := L0.stack }) 2 = some (.table t) := by
      rw [← ht0]; exact index2adr_congr _ _ _ rfl
    rw [ih (i + 1) f _ L' vals1 (by omega) (by push_cast at h1 ⊢; omega)
      (by push_cast at h2 ⊢; omega) (by omega) ht1 hrest]
    have e1 : f + 1 - (n + 1) = f - n := by omega
    have e2 : i + 1 + (n : Int) = i + ((n + 1 : Nat) : Int) := by push_cast; omega
    rw [e1, e2]
    simp

/-- C7 as amended: on a cursor with `N` columns, for a row that `SQLFetch` delivers,
if the reads of the columns `1..n` of a pass deliver the values `vals` and the read of
column `n + 1` fails (`push_column` returns non-zero), then `cur_fetch` returns exactly
two values, nil and the message of the failed read, and none of the values decoded from
the row.  (1) That is so without a caller table.  (2) With a caller table `t` and an
option string that has 'n', when the read fails in the positional pass: the values of
the columns `1..n` have been stored under the indices `1..n` of `t` and stay there; no
other entry of `t` and no other table is changed.  (3) With a caller table `t` and an
option string that has 'a' and no 'n', when the read fails in the by-name pass: the
values of the columns `1..n` have been stored in `t`, where `lua_rawseti (L, 2, i)` puts
them, and stay there; no other entry of `t` and no other table is changed.  (4) With a
caller table `t` and an option string that has 'n' and 'a', when the positional pass
has delivered the values `vals0` of all `N` columns and the read fails in the by-name
pass: `t` holds the values of the columns `1..n` from the by-name pass and those of the
columns `n + 1..N` from the positional pass; no other entry of `t` and no other table is
changed. -/
theorem cur_fetch_failed_read (H : Host σ) (fuel : Nat) (L Ln M : lua_State σ)
    (cur : cur_data) (N n : Nat) (vals : List LuaValue) (ret : Int)
    (hcur : getcursor L = .ok cur L) (hN : cur.numcols = N) (hmax : N ≤ 32767)
    (hn : n < N) (hfuel : n < fuel)
    (hrow : error (H.SQLFetch L.odbc cur.hstmt).1 = false)
    (hfail : push_column H fuel Ln cur.colinfo cur.hstmt ((n : Int) + 1) = .ok ret M)
    (hret : ret ≠ 0) :
    (lua_istable L 2 = false →
      decodeRow H fuel cur keepOnStack (columns n)
        { L with odbc := (H.SQLFetch L.odbc cur.hstmt).2 } = some (vals, Ln) →
      cur_fetch H fuel L = .ok 2 M ∧ ∃ d, results 2 M = [.nil, .string d]) ∧
    (∀ (t : Nat) (opts : List Byte), index2adr L 2 = some (.table t) →
      luaL_optstring H L 3 (bytes "n") = .ok opts L → strchr opts 110 = true →
      decodeRow H fuel cur (storeAt t) (columns n)
        { L with odbc := (H.SQLFetch L.odbc cur.hstmt).2 } = some (vals, Ln) →
      cur_fetch H fuel L = .ok 2 M ∧ (∃ d, results 2 M = [.nil, .string d]) ∧
      (∀ k : Nat, k < n → M.tables t (.number ((k : Int) + 1)) = vals.getD k .nil) ∧
      (∀ (t1 : Nat) (key : LuaValue), (t1 ≠ t ∨ ∀ j : Int, j ∈ columns n → key ≠ .number j) →
        M.tables t1 key = L.tables t1 key)) ∧
    (∀ (t : Nat) (opts : List Byte) (Lb : lua_State σ), index2adr L 2 = some (.table t) →
      luaL_optstring H L 3 (bytes "n") = .ok opts L → strchr opts 110 = false →
      strchr opts 97 = true →
      decodeRowAlpha H fuel cur t (columns n)
        { L with odbc := (H.SQLFetch L.odbc cur.hstmt).2 } = some (vals, Lb) →
      push_name cur ((n : Int) + 1) Lb = some Ln →
      cur_fetch H fuel L = .ok 2 M ∧ (∃ d, results 2 M = [.nil, .string d]) ∧
      (∀ k : Nat, k < n → M.tables t (.number ((k : Int) + 1)) = vals.getD k .nil) ∧
      (∀ (t1 : Nat) (key : LuaValue), (t1 ≠ t ∨ ∀ j : Int, j ∈ columns n → key ≠ .number j) →
        M.tables t1 key = L.tables t1 key)) ∧
    (∀ (t : Nat) (opts : List Byte) (vals0 : List LuaValue) (La Lb : lua_State σ),
      index2adr L 2 = some (.table t) →
      luaL_optstring H L 3 (bytes "n") = .ok opts L → strchr opts 110 = true →
      strchr opts 97 = true → N < fuel →
      decodeRow H fuel cur (storeAt t) (columns N)
        { L with odbc := (H.SQLFetch L.odbc cur.hstmt).2 } = some (vals0, La) →
      decodeRowAlpha H fuel cur t (columns n) La = some (vals, Lb) →
      push_name cur ((n : Int) + 1) Lb = some Ln →
      cur_fetch H fuel L = .ok 2 M ∧ (∃ d, results 2 M = [.nil, .string d]) ∧
      (∀ k : Nat, k < n → M.tables t (.number ((k : Int) + 1)) = vals.getD k .nil) ∧
      (∀ k : Nat, n ≤ k → k < N → M.tables t (.number ((k : Int) + 1)) = vals0.getD k .nil) ∧
      (∀ (t1 : Nat) (key : LuaValue), (t1 ≠ t ∨ ∀ j : Int, j ∈ columns N → key ≠ .number j) →
        M.tables t1 key = L.tables t1 key)) := by
  obtain ⟨hret2, hres, htab⟩ := push_column_failure H fuel Ln M _ _ _ ret hfail hret
  have e : (1 : Int) + (n : Int) = (n : Int) + 1 := by omega
  obtain ⟨f, hf⟩ : ∃ f, fuel - n = f + 1 := ⟨fuel - n - 1, by omega⟩
  have hi : (n : Int) + 1 ≤ cur.numcols := by rw [hN]; omega
  refine ⟨?_, ?_, ?_, ?_⟩
  · intro htab0 hdec
    have htab1 : lua_istable { L with odbc := (H.SQLFetch L.odbc cur.hstmt).2 } 2 = false := by
      rw [← htab0]; simp only [lua_istable, index2adr]
    have hloop := fetch_values_decode H fuel cur n 1 fuel _ Ln vals (by omega)
      (by omega) (by rw [hN]; omega) (by omega) hdec
    rw [cur_fetch_row H fuel L cur hcur hrow]
    simp only [htab1, Bool.false_eq_true, if_false, hloop, e, hf, fetch_values, hi, if_true,
      hfail, Res.bind, hret, ne_eq, not_false_eq_true]
    subst hret2
    exact ⟨rfl, hres⟩
  · intro t opts ht hopts hmode hdec
    have ht1 : index2adr { L with odbc := (H.SQLFetch L.odbc cur.hstmt).2 } 2 =
        some (.table t) := by rw [← ht]; exact index2adr_congr _ _ _ rfl
    have htab1 : lua_istable { L with odbc := (H.SQLFetch L.odbc cur.hstmt).2 } 2 = true := by
      simp only [lua_istable, ht1]
    obtain ⟨_, _, g3, g4⟩ := decodeRow_storeAt H fuel cur t n 1 _ Ln vals hdec
    have hloop := fetch_numerical_decode H fuel cur t n 1 fuel _ Ln vals (by omega)
      (by omega) (by rw [hN]; omega) (by omega) ht1 hdec
    rw [cur_fetch_row H fuel L cur hcur hrow]
    simp only [htab1, if_true, luaL_optstring_odbc H L 3 _ opts _ hopts, Res.bind, hmode,
      hloop, e, hf, fetch_numerical, hi, hfail, hret, ne_eq, not_false_eq_true]
    subst hret2
    refine ⟨rfl, hres, ?_, ?_⟩
    · intro k hk
      have e1 : (k : Int) + 1 = 1 + (k : Int) := by omega
      rw [htab, e1]
      exact g3 k hk
    · intro t1 key hc
      rw [htab]
      exact g4 t1 key hc
  · intro t opts Lb ht hopts hmode ha hdec hpre
    have ht1 : index2adr { L with odbc := (H.SQLFetch L.odbc cur.hstmt).2 } 2 =
        some (.table t) := by rw [← ht]; exact index2adr_congr _ _ _ rfl
    have htab1 : lua_istable { L with odbc := (H.SQLFetch L.odbc cur.hstmt).2 } 2 = true := by
      simp only [lua_istable, ht1]
    obtain ⟨_, _, g3, g4⟩ := decodeRowAlpha_frame H fuel cur t n 1 _ Lb vals hdec
    obtain ⟨a, b, hLn⟩ := lua_rawgeti_twice _ _ _ _ hpre
    have hLnt : Ln.tables = Lb.tables := by rw [hLn]
    have hloop := fetch_alphanumerical_decode H fuel cur t n 1 fuel _ Lb vals (by omega)
      (by omega) (by rw [hN]; omega) (by omega) ht1 hdec
    unfold push_name at hpre
    rw [cur_fetch_row H fuel L cur hcur hrow]
    simp only [htab1, if_true, luaL_optstring_odbc H L 3 _ opts _ hopts, Res.bind, hmode,
      Bool.false_eq_true, if_false, ha, hloop, e, hf, fetch_alphanumerical, hi, hpre, hfail,
      hret, ne_eq, not_false_eq_true]
    subst hret2
    refine ⟨?_, hres, ?_, ?_⟩
    · simp
    · intro k hk
      have e1 : (k : Int) + 1 = 1 + (k : Int) := by omega
      rw [htab, hLnt, e1]
      exact g3 k hk
    · intro t1 key hc
      rw [htab, hLnt]
      exact g4 t1 key hc
  · intro t opts vals0 La Lb ht hopts hmode ha hfuelN hdec0 hdec hpre
    have ht1 : index2adr { L with odbc := (H.SQLFetch L.odbc cur.hstmt).2 } 2 =
        some (.table t) := by rw [← ht]; exact index2adr_congr _ _ _ rfl
    have htab1 : lua_istable { L with odbc := (H.SQLFetch L.odbc cur.hstmt).2 } 2 = true := by
      simp only [lua_istable, ht1]
    obtain ⟨k1, _, k3, k4⟩ := decodeRow_storeAt H fuel cur t N 1 _ La vals0 hdec0
    have hta : index2adr La 2 = some (.table t) := by
      rw [← ht1, k1]; exact index2adr_congr _ _ _ rfl
    obtain ⟨_, _, g3, g4⟩ := decodeRowAlpha_frame H fuel cur t n 1 _ Lb vals hdec
    obtain ⟨a, b, hLn⟩ := lua_rawgeti_twice _ _ _ _ hpre
    have hLnt : Ln.tables = Lb.tables := by rw [hLn]
    have hloop0 := fetch_numerical_decode H fuel cur t N 1 fuel _ La vals0 (by omega)
      (by omega) (by rw [hN]; omega) (by omega) ht1 hdec0
    have hdone := fetch_numerical_done H fuel cur cur.hstmt (fuel - N) (1 + (N : Int)) La
      (by omega) (by rw [hN]; omega)
    have hloop := fetch_alphanumerical_decode H fuel cur t n 1 fuel _ Lb vals (by omega)
      (by omega) (by rw [hN]; omega) (by omega) hta hdec
    unfold push_name at hpre
    rw [cur_fetch_row H fuel L cur hcur hrow]
    simp only [htab1, if_true, luaL_optstring_odbc H L 3 _ opts _ hopts, Res.bind, hmode,
      hloop0, hdone, ne_eq, not_true_eq_false, if_false, ha, hloop, e, hf,
      fetch_alphanumerical, hi, hpre, hfail, hret, not_false_eq_true]
    subst hret2
    refine ⟨rfl, hres, ?_, ?_, ?_⟩
    · intro k hk
      have e1 : (k : Int) + 1 = 1 + (k : Int) := by omega
      rw [htab, hLnt, e1]
      exact g3 k hk
    · intro k hk1 hk2
      have e1 : (k : Int) + 1 = 1 + (k : Int) := by omega
      rw [htab, hLnt, g4 t _ (Or.inr (by
        intro j hj
        simp only [columns, mem_colRange] at hj
        intro he
        injection he with he
        have he1 : (k : Int) + 1 = j := he
        omega)), e1]
      exact k3 k hk2
    · intro t1 key hc
      rw [htab, hLnt, g4 t1 key (by
        rcases hc with hc | hc
        · exact Or.inl hc
        · refine Or.inr (fun j hj => hc j ?_)
          simp only [columns, mem_colRange] at hj ⊢
          omega)]
      exact k4 t1 key hc

/-- C7, counterexample: a fetch into the caller's table (table 2, empty before) of a row
whose column 1 holds 42 and whose column 2 cannot be read.  `cur_fetch` returns nil and
the diagnostic text, and the table holds 42 under index 1: it is not unchanged.  And a
fetch of a row whose String column 2 cannot be read with the return code
`SQL_INVALID_HANDLE`, which `push_column` does not report: `cur_fetch` returns the
values 42 and "", not the failure marker and the diagnostic. -/
theorem cur_fetch_partial_row_in_table :
    (cur_fetch (scriptHost 4) 3 (demoState colsXY [.table 2] rowXfail)).values
      = some [.nil, .string [69, 10]] ∧
    (demoState colsXY [.table 2] rowXfail).tables 2 (.number 1) = .nil ∧
    ((cur_fetch (scriptHost 4) 3 (demoState colsXY [.table 2] rowXfail)).state noState).tables 2
      (.number 1) = .number 42 ∧
    (cur_fetch (scriptHost 4) 3 (demoState colsXY []
        (script [numberOut 42, failedOut SQL_INVALID_HANDLE 0] [SQL_SUCCESS] [[69]]))).values
      = some [.number 42, .string []] := by
  decide

/-- Witness of C7 as amended: the fetch of the counterexample, in which column 1 is
decoded and the read of column 2 fails in the positional pass, and the same fetch in
the mode "a", in which the read of column 2 fails in the by-name pass. -/
theorem cur_fetch_failed_read_witness :
    (cur_fetch (scriptHost 4) 3 (demoState colsXY [.table 2] rowXfail) =
      .ok 2 afterFailedColumn ∧
    afterFailedColumn.tables 2 (.number 1) = .number 42) ∧
    (cur_fetch (scriptHost 4) 3 fetchNamed = .ok 2 afterFailedNamed ∧
    (∃ d, results 2 afterFailedNamed = [.nil, .string d]) ∧
    afterFailedNamed.tables 2 (.number 1) = .number 42) :=
  ⟨⟨((cur_fetch_failed_read (scriptHost 4) 3 (demoState colsXY [.table 2] rowXfail)
        afterFirstColumn afterFailedColumn (demoCursor 2) 2 1 [.number 42] 2 rfl rfl
        (by decide) (by decide) (by decide) (by decide) rfl (by decide)).2.1
        2 (bytes "n") (by decide) rfl (by decide) rfl).1,
    ((cur_fetch_failed_read (scriptHost 4) 3 (demoState colsXY [.table 2] rowXfail)
        afterFirstColumn afterFailedColumn (demoCursor 2) 2 1 [.number 42] 2 rfl rfl
        (by decide) (by decide) (by decide) (by decide) rfl (by decide)).2.1
        2 (bytes "n") (by decide) rfl (by decide) rfl).2.2.1 0 (by decide)⟩,
   ⟨((cur_fetch_failed_read (scriptHost 4) 3 fetchNamed
        beforeFailedNamed afterFailedNamed (demoCursor 2) 2 1 [.number 42] 2 rfl rfl
        (by decide) (by decide) (by decide) (by decide) rfl (by decide)).2.2.1
        2 (bytes "a") afterFirstNamed (by decide) rfl (by decide) (by decide) rfl rfl).1,
    ((cur_fetch_failed_read (scriptHost 4) 3 fetchNamed
        beforeFailedNamed afterFailedNamed (demoCursor 2) 2 1 [.number 42] 2 rfl rfl
        (by decide) (by decide) (by decide) (by decide) rfl (by decide)).2.2.1
        2 (bytes "a") afterFirstNamed (by decide) rfl (by decide) (by decide) rfl rfl).2.1,
    ((cur_fetch_failed_read (scriptHost 4) 3 fetchNamed
        beforeFailedNamed afterFailedNamed (demoCursor 2) 2 1 [.number 42] 2 rfl rfl
        (by decide) (by decide) (by decide) (by decide) rfl (by decide)).2.2.1
        2 (bytes "a") afterFirstNamed (by decide) rfl (by decide) (by decide) rfl rfl).2.2.1
        0 (by decide)⟩⟩

/-! ## The classification of native type codes -/

theorem getcursor_state (L L1 : lua_State σ) (cur : cur_data) (h : getcursor L = .ok cur L1) :
    L1 = L := by
  unfold getcursor at h
  split at h
  · split at h
    · split at h <;> cases h
      rfl
    · cases h
  · cases h

end driver

end LsOdbc
